import Mathlib

/-!
# Verification of the target-mailchimp-v2 batch mapping engine

This file gives a shallow embedding, in Lean 4, of the core of
`target_mailchimp_v2/sinks.py`: the record mapper (`process_batch_record`),
the merge-field schema cache (`handle_custom_fields`), the group/interest
resolution, the null/empty pruning pass (`clean_convert`), the batch
dispatcher (`make_batch_request`), the response reconciler
(`handle_batch_response`), and the HTTP error classification
(`handle_call_api_error`, `validate_response`).

JSON-compatible Python values are modelled by the inductive `JVal`
(numbers are modelled as rationals, covering Python ints and the float
values produced by `float(...)` on decimal notation; network responses are
modelled by an oracle `Env` whose calls always succeed — transport-failure
classification is modelled separately, mirroring `handle_call_api_error`).
Python dictionaries are association lists with unique keys, in insertion
order, which matches CPython dict semantics for the dictionaries this code
builds.

Conventions: a Python function that can raise is modelled with
`Except PyExc`; `return`ed local-rejection dictionaries are ordinary `.ok`
values, exactly as in the source.
-/

set_option maxHeartbeats 1000000

/-- A JSON-compatible Python value (`None`, `bool`, numbers, `str`, `list`,
`dict` with string keys), as handled by the sink. -/
inductive JVal where
  | null : JVal
  | bool : Bool → JVal
  | num : ℚ → JVal
  | str : String → JVal
  | arr : List JVal → JVal
  | obj : List (String × JVal) → JVal

/-- A Python dictionary with string keys, in insertion order. -/
abbrev Obj := List (String × JVal)

/-- Python truthiness (`bool(x)`) for the values we model. -/
def truthy : JVal → Bool
  | .null => false
  | .bool b => b
  | .num q => if q = 0 then false else true
  | .str s => if s = "" then false else true
  | .arr l => !l.isEmpty
  | .obj l => !l.isEmpty

/-- Membership in `clean_convert`'s `allowed_values = [0, "", False]`,
using Python `==` (so any numeric zero, the empty string and `False`). -/
def isAllowed : JVal → Bool
  | .num q => if q = 0 then true else false
  | .str s => if s = "" then true else false
  | .bool b => !b
  | _ => false

/-- First-binding lookup in an association list: Python `d[k]` / `d.get(k)`
on a dict (dicts have unique keys, so first binding is the binding). -/
def olookup (k : String) : List (String × α) → Option α
  | [] => none
  | (k', v) :: rest => if k' = k then some v else olookup k rest

/-- Python `d.get(k)` (default `None`). -/
def jget (d : Obj) (k : String) : JVal := (olookup k d).getD .null

/-- Python `d.get(k, dflt)`. -/
def jgetD (d : Obj) (k : String) (dflt : JVal) : JVal := (olookup k d).getD dflt

/-- Python `d[k] = v` on a dict: replace the value of an existing key in
place, otherwise append the new binding. -/
def oset (d : List (String × α)) (k : String) (v : α) : List (String × α) :=
  match d with
  | [] => [(k, v)]
  | (k', v') :: rest => if k' = k then (k, v) :: rest else (k', v') :: oset rest k v

/-- Python `k in d` for a dict. -/
def jHasKey (v : JVal) (k : String) : Bool :=
  match v with
  | .obj kvs => (olookup k kvs).isSome
  | _ => false

/-- Python `a or b`. -/
def pyOr (a b : JVal) : JVal := if truthy a then a else b

/-- Python exception classes that the modelled code can raise. -/
inductive PyExc where
  | typeError
  | attributeError
  | keyError
  | valueError
  | indexError
  | raised (msg : String)
deriving Repr, DecidableEq

/-- Result of running Python code that may raise. -/
abbrev Res (α : Type) := Except PyExc α

/-! ## clean_convert (the null/empty pruning pass)

Source: `MailChimpV2Sink.clean_convert`.  Lists are cleaned elementwise;
dict values are cleaned and kept when the cleaned value is a list (after
filtering out elements that are neither truthy nor in `allowed_values`),
or when the cleaned value is truthy or in `allowed_values`; a falsy scalar
that is not allowed cleans to `None` (the implicit `return None`). -/

/-- The element filter applied to cleaned list values of dict keys:
`[i for i in v if i or i in allowed_values]`. -/
def keepFilter (l : List JVal) : List JVal :=
  l.filter (fun i => truthy i || isAllowed i)

mutual

/-- `MailChimpV2Sink.clean_convert`. -/
def clean_convert : JVal → JVal
  | .arr l => .arr (cleanList l)
  | .obj kvs => .obj (cleanObj kvs)
  | v => if truthy v || isAllowed v then v else .null

/-- `clean_convert` on the elements of a list (`[self.clean_convert(i) for i in input]`). -/
def cleanList : List JVal → List JVal
  | [] => []
  | x :: xs => clean_convert x :: cleanList xs

/-- `clean_convert`'s dict branch, building `output` binding by binding. -/
def cleanObj : List (String × JVal) → List (String × JVal)
  | [] => []
  | (k, v) :: rest =>
    match clean_convert v with
    | .arr l => (k, .arr (keepFilter l)) :: cleanObj rest
    | v' => if truthy v' || isAllowed v' then (k, v') :: cleanObj rest else cleanObj rest

end

/-! ### Basic lemmas about lookups and pruning -/

theorem olookup_oset (d : List (String × α)) (k k' : String) (v : α) :
    olookup k' (oset d k v) = if k = k' then some v else olookup k' d := by
  induction d with
  | nil => simp [oset, olookup]
  | cons p rest ih =>
    obtain ⟨k₀, v₀⟩ := p
    by_cases h0 : k₀ = k
    · subst h0
      by_cases h1 : k₀ = k'
      · subst h1; simp [oset, olookup]
      · simp [oset, olookup, h1, if_neg h1]
    · by_cases h1 : k₀ = k'
      · subst h1
        have hk : ¬ (k = k₀) := fun h => h0 h.symm
        simp [oset, olookup, h0, hk]
      · simp [oset, olookup, h0, h1, ih]

theorem olookup_oset_self (d : List (String × α)) (k : String) (v : α) :
    olookup k (oset d k v) = some v := by
  simp [olookup_oset]

theorem olookup_oset_ne (d : List (String × α)) (k k' : String) (v : α) (h : k ≠ k') :
    olookup k' (oset d k v) = olookup k' d := by
  simp [olookup_oset, h]

theorem olookup_oset_isSome (d : List (String × α)) (k k' : String) (v : α)
    (h : (olookup k' d).isSome = true) : (olookup k' (oset d k v)).isSome = true := by
  rw [olookup_oset]
  by_cases hk : k = k' <;> simp [hk, h]

/-- A string value always survives the dict-pruning test: it is truthy when
non-empty and in `allowed_values` when empty. -/
theorem keep_str (s : String) : (truthy (.str s) || isAllowed (.str s)) = true := by
  by_cases h : s = "" <;> simp [truthy, isAllowed, h]

/-- A numeric value always survives the dict-pruning test. -/
theorem keep_num (q : ℚ) : (truthy (.num q) || isAllowed (.num q)) = true := by
  by_cases h : q = 0 <;> simp [truthy, isAllowed, h]

/-- A boolean value always survives the dict-pruning test. -/
theorem keep_bool (b : Bool) : (truthy (.bool b) || isAllowed (.bool b)) = true := by
  cases b <;> simp [truthy, isAllowed]

theorem clean_convert_str (s : String) : clean_convert (.str s) = .str s := by
  simp [clean_convert, keep_str s]

theorem clean_convert_num (q : ℚ) : clean_convert (.num q) = .num q := by
  simp [clean_convert, keep_num q]

theorem clean_convert_bool (b : Bool) : clean_convert (.bool b) = .bool b := by
  simp [clean_convert, keep_bool b]

theorem clean_convert_null : clean_convert .null = .null := by
  simp [clean_convert, truthy, isAllowed]

theorem cleanObj_nil : cleanObj [] = [] := by rw [cleanObj]

theorem cleanObj_cons (k : String) (v : JVal) (rest : List (String × JVal)) :
    cleanObj ((k, v) :: rest) =
      match clean_convert v with
      | .arr l => (k, .arr (keepFilter l)) :: cleanObj rest
      | v' => if truthy v' || isAllowed v' then (k, v') :: cleanObj rest else cleanObj rest := by
  rw [cleanObj]

/-- Pruning a dict never introduces keys: a key absent from the input is
absent from the output. -/
theorem cleanObj_lookup_none (kvs : List (String × JVal)) (k : String)
    (h : olookup k kvs = none) : olookup k (cleanObj kvs) = none := by
  induction kvs with
  | nil => simp [cleanObj_nil, olookup]
  | cons p rest ih =>
    obtain ⟨k₀, v₀⟩ := p
    have hk : ¬ (k₀ = k) := by
      intro he; rw [olookup, if_pos he] at h; exact Option.noConfusion h
    rw [olookup, if_neg hk] at h
    rw [cleanObj_cons]
    cases hcv : clean_convert v₀ with
    | arr l => simp [olookup, hk, ih h]
    | null => simp [truthy, isAllowed, ih h]
    | bool b => simp [keep_bool, olookup, hk, ih h]
    | num q => simp [keep_num, olookup, hk, ih h]
    | str s => simp [keep_str, olookup, hk, ih h]
    | obj kvs' =>
      by_cases ht : (truthy (.obj kvs') || isAllowed (.obj kvs')) = true
      · simp only [ht, if_true]; rw [olookup, if_neg hk]; exact ih h
      · simp only [ht, if_false, Bool.false_eq_true]; exact ih h

/-- Stepping a pruning lookup past a binding with a different key. -/
theorem cleanObj_lookup_ne (k₀ k : String) (v₀ : JVal) (rest : List (String × JVal))
    (hk : k₀ ≠ k) : olookup k (cleanObj ((k₀, v₀) :: rest)) = olookup k (cleanObj rest) := by
  rw [cleanObj_cons]
  cases hcv : clean_convert v₀ with
  | arr l => simp [olookup, hk]
  | null => simp [truthy, isAllowed]
  | bool b => simp [keep_bool, olookup, hk]
  | num q => simp [keep_num, olookup, hk]
  | str s => simp [keep_str, olookup, hk]
  | obj kvs' =>
    by_cases ht : (truthy (.obj kvs') || isAllowed (.obj kvs')) = true
    · simp only [ht, if_true]; rw [olookup, if_neg hk]
    · simp only [ht, if_false, Bool.false_eq_true]

theorem cleanObj_cons_str (k : String) (s : String) (rest : List (String × JVal)) :
    cleanObj ((k, .str s) :: rest) = (k, .str s) :: cleanObj rest := by
  rw [cleanObj_cons, clean_convert_str]
  simp [keep_str s]

theorem cleanObj_cons_num (k : String) (q : ℚ) (rest : List (String × JVal)) :
    cleanObj ((k, .num q) :: rest) = (k, .num q) :: cleanObj rest := by
  rw [cleanObj_cons, clean_convert_num]
  simp [keep_num q]

theorem cleanObj_cons_bool (k : String) (b : Bool) (rest : List (String × JVal)) :
    cleanObj ((k, .bool b) :: rest) = (k, .bool b) :: cleanObj rest := by
  rw [cleanObj_cons, clean_convert_bool]
  simp [keep_bool b]

theorem cleanObj_cons_null (k : String) (rest : List (String × JVal)) :
    cleanObj ((k, .null) :: rest) = cleanObj rest := by
  rw [cleanObj_cons, clean_convert_null]
  simp [truthy, isAllowed]

theorem clean_convert_arr (l : List JVal) : clean_convert (.arr l) = .arr (cleanList l) := by
  rw [clean_convert]

theorem clean_convert_obj (kvs : List (String × JVal)) :
    clean_convert (.obj kvs) = .obj (cleanObj kvs) := by
  rw [clean_convert]

theorem cleanList_nil : cleanList [] = [] := by rw [cleanList]

theorem cleanList_cons (x : JVal) (xs : List JVal) :
    cleanList (x :: xs) = clean_convert x :: cleanList xs := by rw [cleanList]

/-- Structural induction for `JVal` exposing the elements of nested lists. -/
theorem JVal.indOn {motive : JVal → Prop}
    (hnull : motive .null)
    (hbool : ∀ b, motive (.bool b))
    (hnum : ∀ q, motive (.num q))
    (hstr : ∀ s, motive (.str s))
    (harr : ∀ l, (∀ x ∈ l, motive x) → motive (.arr l))
    (hobj : ∀ kvs : List (String × JVal), (∀ p ∈ kvs, motive p.2) → motive (.obj kvs)) :
    ∀ v, motive v
  | .null => hnull
  | .bool b => hbool b
  | .num q => hnum q
  | .str s => hstr s
  | .arr l => harr l (fun x hx =>
      JVal.indOn hnull hbool hnum hstr harr hobj x)
  | .obj kvs => hobj kvs (fun p hp =>
      JVal.indOn hnull hbool hnum hstr harr hobj p.2)
termination_by v => sizeOf v
decreasing_by
  · have h1 := List.sizeOf_lt_of_mem hx
    simp only [JVal.arr.sizeOf_spec]
    omega
  · have h1 := List.sizeOf_lt_of_mem hp
    obtain ⟨a, b⟩ := p
    simp only [JVal.obj.sizeOf_spec, Prod.mk.sizeOf_spec] at h1 ⊢
    omega

theorem cleanList_eq_self_of (l : List JVal) (h : ∀ x ∈ l, clean_convert x = x) :
    cleanList l = l := by
  induction l with
  | nil => exact cleanList_nil
  | cons x xs ih =>
    rw [cleanList_cons, h x (by simp), ih (fun y hy => h y (by simp [hy]))]

theorem cleanList_fix_elem (l : List JVal) (h : cleanList l = l) :
    ∀ x ∈ l, clean_convert x = x := by
  induction l with
  | nil => simp
  | cons x xs ih =>
    rw [cleanList_cons] at h
    have h1 : clean_convert x = x := (List.cons.injEq _ _ _ _ ▸ h).1
    have h2 : cleanList xs = xs := (List.cons.injEq _ _ _ _ ▸ h).2
    intro y hy
    rcases List.mem_cons.mp hy with rfl | hmem
    · exact h1
    · exact ih h2 y hmem

theorem keepFilter_idem (l : List JVal) : keepFilter (keepFilter l) = keepFilter l := by
  simp [keepFilter, List.filter_filter]

/-- `clean_convert` is idempotent. -/
theorem clean_convert_idem (v : JVal) :
    clean_convert (clean_convert v) = clean_convert v := by
  induction v using JVal.indOn with
  | hnull => rw [clean_convert_null, clean_convert_null]
  | hbool b => rw [clean_convert_bool, clean_convert_bool]
  | hnum q => rw [clean_convert_num, clean_convert_num]
  | hstr s => rw [clean_convert_str, clean_convert_str]
  | harr l ih =>
    rw [clean_convert_arr, clean_convert_arr]
    have h1 : ∀ x ∈ cleanList l, clean_convert x = x := by
      intro x hx
      induction l with
      | nil => rw [cleanList_nil] at hx; exact absurd hx (List.not_mem_nil x)
      | cons y ys ihy =>
        rw [cleanList_cons] at hx
        rcases List.mem_cons.mp hx with rfl | hmem
        · exact ih y (by simp)
        · exact ihy (fun z hz => ih z (by simp [hz])) hmem
    rw [cleanList_eq_self_of _ h1]
  | hobj kvs ih =>
    rw [clean_convert_obj, clean_convert_obj]
    have : cleanObj (cleanObj kvs) = cleanObj kvs := by
      induction kvs with
      | nil => rw [cleanObj_nil, cleanObj_nil]
      | cons p rest ihr =>
        obtain ⟨k, v⟩ := p
        have ihv : clean_convert (clean_convert v) = clean_convert v :=
          ih (k, v) (by simp)
        have ihrest : cleanObj (cleanObj rest) = cleanObj rest :=
          ihr (fun q hq => ih q (by simp [hq]))
        rw [cleanObj_cons]
        cases hcv : clean_convert v with
        | arr l =>
          have hfixarr : clean_convert (.arr l) = .arr l := by rw [← hcv]; exact ihv
          rw [clean_convert_arr] at hfixarr
          have hfix : cleanList l = l := JVal.arr.inj hfixarr
          have hkept : cleanList (keepFilter l) = keepFilter l :=
            cleanList_eq_self_of _ (fun x hx =>
              cleanList_fix_elem l hfix x (List.mem_of_mem_filter hx))
          simp only []
          rw [cleanObj_cons, clean_convert_arr, hkept]
          simp only []
          rw [keepFilter_idem, ihrest]
        | null => simp only [truthy, isAllowed]; simp [ihrest]
        | bool b => simp only []; rw [if_pos (keep_bool b), cleanObj_cons_bool, ihrest]
        | num q => simp only []; rw [if_pos (keep_num q), cleanObj_cons_num, ihrest]
        | str s => simp only []; rw [if_pos (keep_str s), cleanObj_cons_str, ihrest]
        | obj kvs' =>
          have hfixobj : clean_convert (.obj kvs') = .obj kvs' := by
            rw [← hcv]; exact ihv
          rw [clean_convert_obj] at hfixobj
          have hfix : cleanObj kvs' = kvs' := JVal.obj.inj hfixobj
          by_cases hne : kvs' = []
          · subst hne
            simp only [truthy, isAllowed]
            simp [ihrest]
          · have ht : (truthy (.obj kvs') || isAllowed (.obj kvs')) = true := by
              simp [truthy, isAllowed, hne]
            simp only [ht, if_true]
            rw [cleanObj_cons, clean_convert_obj, hfix]
            simp only [ht, if_true]
            rw [ihrest]
    rw [this]

theorem olookup_eq_none_of_not_mem_keys (d : List (String × α)) (k : String)
    (h : k ∉ d.map Prod.fst) : olookup k d = none := by
  induction d with
  | nil => rfl
  | cons p rest ih =>
    obtain ⟨k₀, v₀⟩ := p
    simp only [List.map_cons, List.mem_cons] at h
    push_neg at h
    rw [olookup, if_neg (fun he => h.1 he.symm)]
    exact ih h.2

/-- Allowed literals (`0`, `""`, `False`) are preserved at their key by the
dict-pruning pass. -/
theorem cleanObj_preserves_allowed (kvs : Obj) (k : String) (w : JVal)
    (hw : isAllowed w = true) (h : olookup k kvs = some w) :
    olookup k (cleanObj kvs) = some w := by
  induction kvs with
  | nil => exact absurd h (by simp [olookup])
  | cons p rest ih =>
    obtain ⟨k₀, v₀⟩ := p
    by_cases hk : k₀ = k
    · subst hk
      rw [olookup, if_pos rfl] at h
      have hv : v₀ = w := Option.some.inj h
      subst hv
      cases v₀ with
      | num q => rw [cleanObj_cons_num, olookup, if_pos rfl]
      | str s => rw [cleanObj_cons_str, olookup, if_pos rfl]
      | bool b => rw [cleanObj_cons_bool, olookup, if_pos rfl]
      | null => exact absurd hw (by simp [isAllowed])
      | arr l => exact absurd hw (by simp [isAllowed])
      | obj o => exact absurd hw (by simp [isAllowed])
    · rw [olookup, if_neg hk] at h
      rw [cleanObj_lookup_ne _ _ _ _ hk]
      exact ih h

/-- A key bound to `None` in a dict with unique keys is removed by the
dict-pruning pass. -/
theorem cleanObj_removes_null (kvs : Obj) (k : String)
    (hnd : (kvs.map Prod.fst).Nodup) (h : olookup k kvs = some .null) :
    olookup k (cleanObj kvs) = none := by
  induction kvs with
  | nil => exact absurd h (by simp [olookup])
  | cons p rest ih =>
    obtain ⟨k₀, v₀⟩ := p
    simp only [List.map_cons, List.nodup_cons] at hnd
    by_cases hk : k₀ = k
    · subst hk
      rw [olookup, if_pos rfl] at h
      have hv : v₀ = .null := Option.some.inj h
      subst hv
      rw [cleanObj_cons_null]
      exact cleanObj_lookup_none _ _ (olookup_eq_none_of_not_mem_keys _ _ hnd.1)
    · rw [olookup, if_neg hk] at h
      rw [cleanObj_lookup_ne _ _ _ _ hk]
      exact ih hnd.2 h

/-- C2: the null/empty pruning pass (`clean_convert`) is idempotent —
applying it twice to any payload yields the same result as applying it
once — and for every key of a dictionary (the recursion of `clean_convert`
applies this at every nesting level, through dicts and lists), the literal
values `0`, `""` and `False` are preserved, while a key bound to `None` is
removed and an absent key stays absent. -/
theorem C2_clean_convert_idempotent_and_pruning :
    (∀ v : JVal, clean_convert (clean_convert v) = clean_convert v) ∧
    (∀ (kvs : Obj) (k : String) (w : JVal), isAllowed w = true →
        olookup k kvs = some w → olookup k (cleanObj kvs) = some w) ∧
    (∀ (kvs : Obj) (k : String), (kvs.map Prod.fst).Nodup →
        olookup k kvs = some .null → olookup k (cleanObj kvs) = none) ∧
    (∀ (kvs : Obj) (k : String), olookup k kvs = none →
        olookup k (cleanObj kvs) = none) :=
  ⟨clean_convert_idem, cleanObj_preserves_allowed, cleanObj_removes_null,
    cleanObj_lookup_none⟩

/-- Witness for C2 at a concrete payload. -/
theorem C2_clean_convert_witness :
    clean_convert (clean_convert
        (.obj [("a", .null), ("b", .num 0), ("c", .str ""), ("d", .bool false)])) =
      clean_convert
        (.obj [("a", .null), ("b", .num 0), ("c", .str ""), ("d", .bool false)]) ∧
    olookup "b" (cleanObj [("a", .null), ("b", .num 0)]) = some (.num 0) ∧
    olookup "a" (cleanObj [("a", .null), ("b", .num 0)]) = none ∧
    olookup "z" (cleanObj [("a", .null), ("b", .num 0)]) = none :=
  ⟨C2_clean_convert_idempotent_and_pruning.1 _,
   C2_clean_convert_idempotent_and_pruning.2.1 [("a", .null), ("b", .num 0)] "b"
     (.num 0) (by decide) (by simp [olookup]),
   C2_clean_convert_idempotent_and_pruning.2.2.1 [("a", .null), ("b", .num 0)] "a"
     (by simp) (by simp [olookup]),
   C2_clean_convert_idempotent_and_pruning.2.2.2 [("a", .null), ("b", .num 0)] "z"
     (by simp [olookup])⟩

/-! ## HTTP error classification

Source: `handle_call_api_error` (used by the list-resolution path in
`get_list_id`, the schema paths in `handle_custom_fields`, the
batch-dispatch path in `make_batch_request` and the fallback sink) and
`BaseSink.validate_response` (the generic HTTP response validation). -/

/-- The exception raised (or re-raised) by the error-handling helpers. -/
inductive ErrClass where
  | invalidCredentials (msg : String)
  | invalidPayload (msg : String)
  | retriableApiError (msg : String)
  | genericException (msg : String)
  | reraiseOriginal (originalMessage : String)
  | deferToSuper
deriving Repr, DecidableEq

/-- Whether the raised exception is the SDK's retriable (transient) error. -/
def ErrClass.isRetriable : ErrClass → Bool
  | .retriableApiError _ => true
  | _ => false

/-- An `ApiClientError` as consumed by `handle_call_api_error`: the
attributes `status_code` and `status` may be absent (outer `none`) or
present with a possibly-`None` value (`hasattr` chain, line 19); `text`
may be falsy, in which case `str(error)` is used (line 20). -/
structure ApiErrorModel where
  status_code : Option (Option Int)
  status : Option (Option Int)
  text : Option String
  strRepr : String

/-- `error.status_code if hasattr(...) else error.status if hasattr(...) else None`. -/
def ApiErrorModel.resolvedStatus (e : ApiErrorModel) : Option Int :=
  match e.status_code with
  | some v => v
  | none =>
    match e.status with
    | some v => v
    | none => none

/-- `error.text or str(error)`. -/
def ApiErrorModel.errorMessage (e : ApiErrorModel) : String :=
  match e.text with
  | some t => if t = "" then e.strRepr else t
  | none => e.strRepr

/-- `handle_call_api_error` (sinks.py lines 17-34); the returned `ErrClass`
is the exception the function raises. -/
def handle_call_api_error (e : ApiErrorModel) (customStart customEnd : String) : ErrClass :=
  let error_message := e.errorMessage
  let custom := customStart ++ error_message ++ customEnd
  match e.resolvedStatus with
  | some c =>
    if c = 401 ∨ c = 403 then .invalidCredentials custom
    else if c = 400 then .invalidPayload custom
    else if custom ≠ error_message then .genericException custom
    else .reraiseOriginal error_message
  | none =>
    if custom ≠ error_message then .genericException custom
    else .reraiseOriginal error_message

/-- `BaseSink.validate_response` (sinks.py lines 117-130): classification
of an HTTP response by status code; statuses not matched fall through to
the SDK's default validation (modelled as `deferToSuper`). -/
def validate_response (status : Int) (text : String) : ErrClass :=
  if status = 400 then .invalidPayload text
  else if status = 401 ∨ status = 403 then .invalidCredentials text
  else if status = 502 then .retriableApiError text
  else .deferToSuper

/-- C3 counterexample: on the `ApiClientError` path shared by the
list-resolution, schema and batch-dispatch calls (`handle_call_api_error`),
HTTP 502 is not classified as a retriable error — the original error is
re-raised like any other unrecognized status. -/
theorem C3_counterexample_502_not_retriable :
    handle_call_api_error ⟨some (some 502), none, some "Bad gateway", "Bad gateway"⟩ "" "" =
      .reraiseOriginal "Bad gateway" ∧
    ErrClass.isRetriable
      (handle_call_api_error ⟨some (some 502), none, some "Bad gateway", "Bad gateway"⟩ "" "") =
      false := by
  constructor <;> decide

/-- C3 (amended): `handle_call_api_error` — the classifier used by the
list-resolution/schema paths and the batch-dispatch path — maps 401/403 to
invalid-credentials and 400 to invalid-payload; every other failure
(including 502) is propagated carrying the original message: re-raised
as-is, or wrapped in a generic exception when a custom message was
supplied.  The 502 → retriable mapping exists only in the HTTP
response-validation path (`validate_response`), which also maps 400 and
401/403 as above. -/
theorem C3_error_classification (e : ApiErrorModel) (s t : String) (txt : String) :
    ((e.resolvedStatus = some 401 ∨ e.resolvedStatus = some 403) →
       handle_call_api_error e s t = .invalidCredentials (s ++ e.errorMessage ++ t)) ∧
    (e.resolvedStatus = some 400 →
       handle_call_api_error e s t = .invalidPayload (s ++ e.errorMessage ++ t)) ∧
    (∀ c : Int, e.resolvedStatus = some c → c ≠ 400 → c ≠ 401 → c ≠ 403 →
       handle_call_api_error e s t =
         (if s ++ e.errorMessage ++ t ≠ e.errorMessage
          then .genericException (s ++ e.errorMessage ++ t)
          else .reraiseOriginal e.errorMessage)) ∧
    (e.resolvedStatus = none →
       handle_call_api_error e s t =
         (if s ++ e.errorMessage ++ t ≠ e.errorMessage
          then .genericException (s ++ e.errorMessage ++ t)
          else .reraiseOriginal e.errorMessage)) ∧
    validate_response 400 txt = .invalidPayload txt ∧
    validate_response 401 txt = .invalidCredentials txt ∧
    validate_response 403 txt = .invalidCredentials txt ∧
    validate_response 502 txt = .retriableApiError txt := by
  refine ⟨?_, ?_, ?_, ?_, ?_, ?_, ?_, ?_⟩
  · intro h
    rcases h with h | h <;> simp [handle_call_api_error, h]
  · intro h
    simp [handle_call_api_error, h]
  · intro c h h400 h401 h403
    simp [handle_call_api_error, h, h400, h401, h403]
  · intro h
    simp [handle_call_api_error, h]
  · simp [validate_response]
  · simp [validate_response]
  · simp [validate_response]
  · simp [validate_response]

/-- Witness for C3 at concrete statuses. -/
theorem C3_error_classification_witness :
    handle_call_api_error ⟨some (some 401), none, some "no", "no"⟩ "" "" =
      .invalidCredentials "no" ∧
    handle_call_api_error ⟨some (some 400), none, some "bad", "bad"⟩ "" "" =
      .invalidPayload "bad" ∧
    handle_call_api_error ⟨some (some 500), none, some "boom", "boom"⟩ "" "" =
      .reraiseOriginal "boom" ∧
    validate_response 502 "gw" = .retriableApiError "gw" := by
  refine ⟨?_, ?_, ?_, ?_⟩
  · have h := (C3_error_classification ⟨some (some 401), none, some "no", "no"⟩ "" "" "").1
      (Or.inl (by decide))
    simpa using h
  · have h := (C3_error_classification ⟨some (some 400), none, some "bad", "bad"⟩ "" "" "").2.1
      (by decide)
    simpa using h
  · have h := (C3_error_classification ⟨some (some 500), none, some "boom", "boom"⟩ "" "" "").2.2.1
      500 (by decide) (by decide) (by decide) (by decide)
    simpa using h
  · exact (C3_error_classification ⟨none, none, none, ""⟩ "" "" "gw").2.2.2.2.2.2.2

/-! ## String primitives

Python's `str.lower`, `str.strip`, `str.split()` and `str.split(sep)` are
modelled over character lists (ASCII case folding and the ASCII whitespace
set; the code under verification only feeds these ASCII identifiers and
emails). -/

/-- Python `s.lower()` (ASCII). -/
def pyLower (s : String) : String := ⟨s.data.map Char.toLower⟩

/-- Python `s.strip()`. -/
def pyTrim (s : String) : String :=
  ⟨(((s.data.dropWhile Char.isWhitespace).reverse.dropWhile Char.isWhitespace).reverse)⟩

/-- Helper for `pySplitWs`, accumulating the current token reversed. -/
def splitWsAux : List Char → List Char → List String
  | [], acc => if acc.isEmpty then [] else [⟨acc.reverse⟩]
  | c :: cs, acc =>
    if c.isWhitespace then
      if acc.isEmpty then splitWsAux cs [] else ⟨acc.reverse⟩ :: splitWsAux cs []
    else splitWsAux cs (c :: acc)

/-- Python `s.split()`: split on runs of whitespace, dropping empty tokens. -/
def pySplitWs (s : String) : List String := splitWsAux s.data []

/-- Helper for `pySplitChar`. -/
def splitCharAux (sep : Char) : List Char → List Char → List String
  | [], acc => [⟨acc.reverse⟩]
  | c :: cs, acc =>
    if c = sep then ⟨acc.reverse⟩ :: splitCharAux sep cs []
    else splitCharAux sep cs (c :: acc)

/-- Python `s.split(sep)` for a one-character separator. -/
def pySplitChar (s : String) (sep : Char) : List String := splitCharAux sep s.data []

/-- Python `sep.join(xs)`. -/
def pyJoin (sep : String) : List String → String
  | [] => ""
  | [x] => x
  | x :: xs => x ++ sep ++ pyJoin sep xs

/-! ## Result reconciliation (`handle_batch_response`) -/

/-- Python `str(x)` as used in f-string interpolation.  The rendering of
non-integer numbers and containers is approximated; the claims never
inspect these rendered fragments. -/
def pyStr : JVal → String
  | .null => "None"
  | .bool true => "True"
  | .bool false => "False"
  | .num q => if q.den = 1 then toString q.num else toString q
  | .str s => s
  | .arr _ => "[...]"
  | .obj _ => "\x7b...\x7d"

/-- Python iteration `for x in v`: lists yield their elements, dicts yield
their keys, strings yield one-character strings; other values raise
`TypeError`. -/
def iterElems : JVal → Res (List JVal)
  | .arr l => .ok l
  | .obj kvs => .ok (kvs.map (fun p => .str p.1))
  | .str s => .ok (s.data.map (fun c => .str (String.singleton c)))
  | _ => .error .typeError

/-- Python `a + b` for the two member lists, producing the iterable the
first reconciliation loop walks (`TypeError` when the values cannot be
concatenated or iterated). -/
def pyAddLists : JVal → JVal → Res (List JVal)
  | .arr a, .arr b => .ok (a ++ b)
  | .str a, .str b => .ok ((a ++ b).data.map (fun c => .str (String.singleton c)))
  | _, _ => .error .typeError

/-- `classify_batch_error_or_false` (sinks.py lines 12-15): the
`hg_error_class` update for recognized error codes, else `False`
(modelled as `none`). -/
def classify_batch_error_or_false (e : Obj) : Option String :=
  match jget e "error_code" with
  | .str c =>
    if c = "ERROR_GENERIC" ∨ c = "HG_EMAIL_REQUIRED" ∨ c = "HG_ADDRESS_FORMAT_ERROR" ∨
       c = "HG_LIST_ITEM_FORMAT_ERROR" ∨ c = "HG_GROUP_TITLE_NOT_FOUND" ∨
       c = "HG_ADDRESS_MISSING_FIELDS"
    then some "InvalidPayloadError" else none
  | _ => none

/-- `x.lower()` on the value read for an email key (`AttributeError` when
the value is not a string). -/
def lowerEmail (v : JVal) : Res String :=
  match v with
  | .str s => .ok (pyLower s)
  | _ => .error .attributeError

/-- One `state_updates` entry for a created/updated member
(`handle_batch_response`, first loop, lines 429-434). -/
def member_outcome (ids : Obj) (m : JVal) : Res JVal :=
  match m with
  | .obj mo =>
    match olookup "id" mo with
    | some mid =>
      match lowerEmail (jgetD mo "email_address" (.str "")) with
      | .ok low => .ok (.obj [("success", .bool true), ("id", mid),
          ("externalId", (olookup low ids).getD .null)])
      | .error err => .error err
    | none => .error .keyError
  | _ => .error .attributeError

/-- One `state_updates` entry for a provider-reported error
(`handle_batch_response`, second loop, lines 436-445). -/
def error_outcome (ids : Obj) (e : JVal) : Res JVal :=
  match e with
  | .obj eo =>
    match lowerEmail (jgetD eo "email_address" (.str "")) with
    | .ok low =>
      let base : Obj :=
        [("success", .bool false),
         ("error", .str ("error: " ++ pyStr (jget eo "error") ++ ", field: " ++
            pyStr (jget eo "field") ++ ", field_message: " ++ pyStr (jget eo "value"))),
         ("externalId", (olookup low ids).getD .null)]
      .ok (.obj (match classify_batch_error_or_false eo with
                 | some cls => oset base "hg_error_class" (.str cls)
                 | none => base))
    | .error err => .error err
  | _ => .error .attributeError

/-- One `state_updates` entry for a local rejection
(`handle_batch_response`, third loop, lines 447-458). -/
def map_error_outcome (e : JVal) : Res JVal :=
  match e with
  | .obj eo =>
    let base : Obj :=
      [("success", .bool false), ("error", jget eo "error"),
       ("externalId", jget eo "externalId")]
    .ok (.obj (match classify_batch_error_or_false eo with
               | some cls => oset base "hg_error_class" (.str cls)
               | none => base))
  | _ => .error .attributeError

/-- Run an outcome builder over a list, propagating the first raised
exception (a Python `for` loop that appends). -/
def resMap (f : JVal → Res JVal) : List JVal → Res (List JVal)
  | [] => .ok []
  | x :: xs =>
    match f x with
    | .ok y =>
      match resMap f xs with
      | .ok ys => .ok (y :: ys)
      | .error e => .error e
    | .error e => .error e

/-- `MailChimpV2Sink.handle_batch_response` (lines 420-459): builds the
`state_updates` list from the provider batch response, the accumulated
external-id index and the local rejections. -/
def handle_batch_response (ids : Obj) (response : Obj) (map_errors : List JVal) :
    Res (List JVal) :=
  match pyAddLists (jgetD response "new_members" (.arr []))
      (jgetD response "updated_members" (.arr [])) with
  | .error e => .error e
  | .ok members =>
    match resMap (member_outcome ids) members with
    | .error e => .error e
    | .ok memberUpdates =>
      match iterElems (jgetD response "errors" (.arr [])) with
      | .error e => .error e
      | .ok errs =>
        match resMap (error_outcome ids) errs with
        | .error e => .error e
        | .ok errorUpdates =>
          match resMap map_error_outcome map_errors with
          | .error e => .error e
          | .ok mapErrorUpdates => .ok (memberUpdates ++ errorUpdates ++ mapErrorUpdates)

/-- C4 counterexample: a created member whose email was never indexed gets
`externalId = None` — not the email itself as the claim states. -/
theorem C4_counterexample_missing_index_gives_null :
    handle_batch_response []
        [("new_members", .arr [.obj [("id", .str "m1"), ("email_address", .str "A@x.com")]])]
        [] =
      .ok [.obj [("success", .bool true), ("id", .str "m1"), ("externalId", .null)]] ∧
    JVal.null ≠ JVal.str "a@x.com" := by
  constructor
  · rfl
  · intro h
    exact JVal.noConfusion h

/-- C4 (amended): for every created or updated member entry carrying an
`id` and a string `email_address`, the reconciler emits a success outcome
whose `id` is the provider-assigned id and whose `externalId` is the
ExternalIdIndex entry for the lowercased `email_address` — falling back to
`None` (not to the email itself) when that email was never indexed; and
`handle_batch_response` emits exactly these outcomes for the concatenated
`new_members`/`updated_members` lists of the response. -/
theorem C4_member_outcome_externalId (ids : Obj) (mo : Obj) (mid : JVal) (em : String)
    (hid : olookup "id" mo = some mid)
    (hem : jgetD mo "email_address" (.str "") = .str em) :
    member_outcome ids (.obj mo) =
      .ok (.obj [("success", .bool true), ("id", mid),
        ("externalId", (olookup (pyLower em) ids).getD .null)]) ∧
    ∀ (ms us : List JVal) (outs : List JVal),
      resMap (member_outcome ids) (ms ++ us) = .ok outs →
      handle_batch_response ids [("new_members", .arr ms), ("updated_members", .arr us)] [] =
        .ok outs := by
  constructor
  · simp [member_outcome, hid, hem, lowerEmail]
  · intro ms us outs h
    simp [handle_batch_response, jgetD, olookup, pyAddLists, h, iterElems, resMap]

/-- Witness for C4 at a concrete response. -/
theorem C4_member_outcome_witness :
    member_outcome [("a@x.com", .str "ext-1")]
        (.obj [("id", .str "m1"), ("email_address", .str "A@x.com")]) =
      .ok (.obj [("success", .bool true), ("id", .str "m1"),
        ("externalId", .str "ext-1")]) := by
  have h := (C4_member_outcome_externalId [("a@x.com", .str "ext-1")]
    [("id", .str "m1"), ("email_address", .str "A@x.com")] (.str "m1") "A@x.com"
    (by simp [olookup]) (by simp [jgetD, olookup])).1
  have hl : pyLower "A@x.com" = "a@x.com" := rfl
  simpa [olookup, hl] using h

/-! ## Number parsing (`float(...)`) -/

/-- Value of a digit string (`none` when a non-digit appears). -/
def digitsVal : List Char → Option ℕ
  | [] => some 0
  | c :: cs =>
    if c.isDigit then
      match digitsVal cs with
      | some n => some ((c.toNat - 48) * 10 ^ cs.length + n)
      | none => none
    else none

/-- Leading sign of a numeric literal: `(negative, rest)`. -/
def parseSignChars : List Char → Bool × List Char
  | '-' :: cs => (true, cs)
  | '+' :: cs => (false, cs)
  | cs => (false, cs)

/-- Mantissa `digits[.digits]` of a decimal literal. -/
def parseMantissa (cs : List Char) : Option ℚ :=
  let ip := cs.takeWhile (fun c => !(c = '.' : Bool))
  match cs.dropWhile (fun c => !(c = '.' : Bool)) with
  | [] =>
    if ip.isEmpty then none
    else match digitsVal ip with
      | some n => some (n : ℚ)
      | none => none
  | _ :: frac =>
    if frac.any (fun c => c = '.') then none
    else if ip.isEmpty && frac.isEmpty then none
    else match digitsVal ip, digitsVal frac with
      | some i, some f => some ((i : ℚ) + (f : ℚ) / (10 : ℚ) ^ frac.length)
      | _, _ => none

/-- Modelled from CPython `float(str)` on decimal notation: optional sign,
`digits[.digits]`, optional decimal exponent (`inf`/`nan`/underscore forms
are not modelled; no claim depends on them). -/
def parseFloatChars (cs : List Char) : Option ℚ :=
  match parseSignChars cs with
  | (neg, cs1) =>
    let lowered := cs1.map Char.toLower
    let mant := lowered.takeWhile (fun c => !(c = 'e' : Bool))
    let base? :=
      match lowered.dropWhile (fun c => !(c = 'e' : Bool)) with
      | [] => parseMantissa mant
      | _ :: ex =>
        match parseMantissa mant with
        | some m =>
          match parseSignChars ex with
          | (eneg, ecs) =>
            if ecs.isEmpty then none
            else match digitsVal ecs with
              | some n => some (if eneg then m / (10 : ℚ) ^ n else m * (10 : ℚ) ^ n)
              | none => none
        | none => none
    match base? with
    | some b => some (if neg then -b else b)
    | none => none

/-- Python `float(x)` (`ValueError`/`TypeError` on failure). -/
def pyFloat : JVal → Res JVal
  | .num q => .ok (.num q)
  | .bool b => .ok (.num (if b then 1 else 0))
  | .str s =>
    match parseFloatChars (pyTrim s).data with
    | some q => .ok (.num q)
    | none => .error .valueError
  | _ => .error .typeError

/-! ## The sink model -/

/-- Oracle for the provider's responses; calls are modelled as succeeding
(transport-failure classification is settled separately through
`handle_call_api_error`, to which every `except ApiClientError` block
delegates). -/
structure Env where
  serverName : String
  mergeFieldsResp : List (String × String)
  addMergeField : JVal → String × String
  categories : List (String × String)
  interestsFor : String → List (String × String)
  createInterest : String → String → String × String
  batchResp : Obj

/-- Group taxonomy cache: `title ↦ (category id, name ↦ interest id)`. -/
abbrev GroupsDict := List (String × String × List (String × String))

/-- The mutable attributes of `MailChimpV2Sink` relevant to the core, plus
call counters for the provider endpoints. -/
structure SinkState where
  server : Option String
  list_id : Option String
  custom_fields : Option (List (String × String))
  groups_dict : Option GroupsDict
  external_ids_dict : Obj
  mergeFieldFetches : ℕ
  mergeFieldAdds : ℕ
  categoryFetches : ℕ
  interestFetches : ℕ
  interestAdds : ℕ
  batchCalls : ℕ

/-- `BaseSink.contact_names`. -/
def contact_names : List String :=
  ["customers", "contacts", "customer", "contact", "list_members"]

/-- `self.stream_name.lower() in self.contact_names`. -/
def isContactStream (stream : String) : Bool := contact_names.contains (pyLower stream)

/-- `get_email_if_exists` (lines 36-43): `email_address` first, then
`email`; string values are stripped of surrounding whitespace. -/
def get_email_if_exists (record : Obj) : JVal :=
  if truthy (jget record "email_address") then
    match jget record "email_address" with
    | .str s => .str (pyTrim s)
    | v => v
  else if truthy (jget record "email") then
    match jget record "email" with
    | .str s => .str (pyTrim s)
    | v => v
  else .null

/-- A local rejection dictionary:
`{"error": msg, "externalId": record.get("externalId"), "error_code": code}`. -/
def rejection (msg : String) (record : Obj) (code : String) : JVal :=
  .obj [("error", .str msg), ("externalId", jget record "externalId"),
        ("error_code", .str code)]

def emailRequiredMsg : String := "Email was not provided and it\x27s a required value"

def addressFormatMsg : String :=
  "Addresses field is not formatted correctly, addresses format should be: [\x7b\x27line1\x27: \x27xxxxx\x27, \x27city\x27: \x27xxxxx\x27, \x27state\x27:\x27xxxxx\x27, \x27postal_code\x27:\x27xxxxx\x27\x7d]"

def listItemMsg (ln : JVal) : String :=
  "Failed to post: List item \x27" ++ pyStr ln ++
    "\x27 format is incorrect or incomplete, list item format should be \x27groupTitle/groupName\x27"

def groupTitleMsg (title : String) : String :=
  "Group title " ++ title ++ " not found in this account."

/-- Name resolution (lines 214-219): split a truthy `name` on whitespace
(`ValueError` when there is no token to unpack, `AttributeError` on a
non-string), else fall back to `first_name`/`last_name` with `or ""`. -/
def nameStep (record : Obj) : Res (JVal × JVal) :=
  if truthy (jget record "name") then
    match jget record "name" with
    | .str s =>
      match pySplitWs s with
      | [] => .error .valueError
      | f :: rest => .ok (.str f, .str (pyJoin " " rest))
    | _ => .error .attributeError
  else
    .ok (pyOr (jget record "first_name") (.str ""),
         pyOr (jget record "last_name") (.str ""))

/-- The location defaults of lines 221-229. -/
def baseLocation : Obj :=
  [("latitude", .num 0), ("longitude", .num 0), ("gmtoff", .num 0), ("dstoff", .num 0),
   ("country_code", .str ""), ("timezone", .str ""), ("region", .str "")]

def requiredAddrFields : List String := ["addr1", "city", "state", "zip"]

/-- The `address` dict built from the first element of `addresses`
(lines 240-251), including the optional `country` and `addr2` keys. -/
def mapped_address (ad : Obj) : Obj :=
  let a0 : Obj :=
    [("addr1", jget ad "line1"), ("city", jget ad "city"), ("state", jget ad "state"),
     ("zip", jgetD ad "postalCode" (jget ad "postal_code"))]
  let a1 := if truthy (jget ad "country") then oset a0 "country" (jget ad "country") else a0
  if truthy (jget ad "line2") then oset a1 "addr2" (jget ad "line2") else a1

/-- The required-field loop of lines 254-258: after it, `address` is
`None` iff some required field is falsy. -/
def address_missing_required (a : Obj) : Bool :=
  a.any (fun p => requiredAddrFields.contains p.1 && !truthy p.2)

/-- The `location.update(...)` of lines 260-267. -/
def location_of (ad : Obj) (lat lon : JVal) : Obj :=
  oset (oset (oset (oset baseLocation "country_code" (jget ad "country"))
    "region" (jget ad "state")) "latitude" lat) "longitude" lon

/-- Address handling (lines 231-267): `.inl` carries the early-returned
rejection; `.inr (addr?, location)` carries the kept address (or `none`
when a required field is falsy) and the updated location. -/
def addressStep (record : Obj) : Res (Sum JVal (Option Obj × Obj)) :=
  if truthy (jget record "addresses") then
    match jget record "addresses" with
    | .arr l =>
      match l with
      | [] => .error .indexError
      | ad :: _ =>
        match ad with
        | .obj adObj =>
          let address := mapped_address adObj
          let addrOpt := if address_missing_required address then none else some address
          match pyFloat (jgetD adObj "latitude" (.num 0)) with
          | .error e => .error e
          | .ok lat =>
            match pyFloat (jgetD adObj "longitude" (.num 0)) with
            | .error e => .error e
            | .ok lon => .ok (.inr (addrOpt, location_of adObj lat lon))
        | _ => .error .attributeError
    | _ => .ok (.inl (rejection addressFormatMsg record "HG_ADDRESS_FORMAT_ERROR"))
  else .ok (.inr (none, baseLocation))

/-- Phone handling (lines 291-294): first element of `phone_numbers`, its
`number` field only. -/
def phoneStep (record : Obj) (mf : Obj) : Res Obj :=
  if truthy (jget record "phone_numbers") then
    match jget record "phone_numbers" with
    | .arr (p :: _) =>
      match p with
      | .obj pd =>
        .ok (if truthy (jget pd "number") then oset mf "PHONE" (jget pd "number") else mf)
      | _ => .error .attributeError
    | .arr [] => .error .indexError
    | .str _ => .error .attributeError
    | .obj _ => .error .keyError
    | _ => .error .typeError
  else .ok mf

/-- The loop body of `handle_custom_fields` (lines 183-203), threading the
merge-field cache (`name ↦ tag`), the number of `add_list_merge_field`
calls and the `merge_fields` dict.  On a raised exception the partially
updated cache is still returned (Python mutates `self.custom_fields` in
place). -/
def cfLoop (env : Env) (fields : List JVal) (cf : List (String × String)) (adds : ℕ)
    (mf : Obj) : Res Obj × List (String × String) × ℕ :=
  match fields with
  | [] => (.ok mf, cf, adds)
  | f :: rest =>
    match f with
    | .obj fd =>
      match jget fd "name" with
      | .str s =>
        if (cf.map Prod.snd).contains s then
          cfLoop env rest cf adds (oset mf s (jget fd "value"))
        else if (cf.map Prod.fst).contains s then
          cfLoop env rest cf adds (oset mf ((olookup s cf).getD "") (jget fd "value"))
        else
          match env.addMergeField (.str s) with
          | (rn, rt) => cfLoop env rest (oset cf rn rt) (adds + 1) mf
      | .arr _ => (.error .typeError, cf, adds)
      | .obj _ => (.error .typeError, cf, adds)
      | other =>
        match env.addMergeField other with
        | (rn, rt) => cfLoop env rest (oset cf rn rt) (adds + 1) mf
    | _ => cfLoop env rest cf adds mf

/-- `MailChimpV2Sink.handle_custom_fields` (lines 172-204): lazily fetch
the merge-field cache, then resolve each custom field through it,
provisioning unknown names as new text merge fields. -/
def handle_custom_fields (env : Env) (st : SinkState) (rcf : JVal) (mf : Obj) :
    Res Obj × SinkState :=
  let stC :=
    match st.custom_fields with
    | some _ => st
    | none =>
      { st with custom_fields := some env.mergeFieldsResp,
                mergeFieldFetches := st.mergeFieldFetches + 1 }
  match iterElems rcf with
  | .error e => (.error e, stC)
  | .ok fields =>
    match cfLoop env fields (stC.custom_fields.getD []) 0 mf with
    | (res, cf1, adds) =>
      (res, { stC with custom_fields := some cf1,
                       mergeFieldAdds := stC.mergeFieldAdds + adds })

/-- `BaseSink.get_server` (lines 84-88): resolve and cache the server
prefix on first use (the resolution itself — API-key parsing or the OAuth
metadata call, lines 58-82 — is summarized by `env.serverName`; its
failure modes do not interact with any claim). -/
def ensureServer (env : Env) (st : SinkState) : SinkState :=
  match st.server with
  | some _ => st
  | none => { st with server := some env.serverName }

/-- The lazy taxonomy fetch of lines 322-332: one interest-categories call
plus one interests call per category. -/
def fetchGroups (env : Env) : GroupsDict :=
  env.categories.map (fun p => (p.1, p.2, env.interestsFor p.2))

/-- `if self.groups_dict is None and self.list_id:` (line 322). -/
def ensureGroups (env : Env) (st : SinkState) : SinkState :=
  match st.groups_dict with
  | some _ => st
  | none =>
    match st.list_id with
    | some lid =>
      if lid = "" then st
      else { st with groups_dict := some (fetchGroups env),
                     categoryFetches := st.categoryFetches + 1,
                     interestFetches := st.interestFetches + env.categories.length }
    | none => st

/-- `d.get(name)` truthiness for a cached interest id. -/
def truthyIdOpt : Option String → Bool
  | some s => if s = "" then false else true
  | none => false

/-- The loop over `lists` (lines 336-353): `.inl` when a rejection is
returned, `.inr` with the accumulated `group_name_ids` otherwise; threads
the (possibly still-`None`) groups cache and counts interest-provisioning
calls.  A raised exception surfaces as `.error` with the cache kept. -/
def groupsLoop (env : Env) (record : Obj) (items : List JVal) (gd : Option GroupsDict)
    (creates : ℕ) (acc : List String) :
    Res (Sum JVal (List String)) × Option GroupsDict × ℕ :=
  match items with
  | [] => (.ok (.inr acc), gd, creates)
  | it :: rest =>
    let parts? : Option (String × String) :=
      match it with
      | .str s =>
        match pySplitChar s '/' with
        | [a, b] => some (a, b)
        | _ => none
      | _ => none
    match parts? with
    | none =>
      (.ok (.inl (rejection (listItemMsg it) record "HG_LIST_ITEM_FORMAT_ERROR")),
       gd, creates)
    | some (title, gname) =>
      match gd with
      | none => (.error .attributeError, gd, creates)
      | some g =>
        match olookup title g with
        | some entry =>
          if truthyIdOpt (olookup gname entry.2) then
            groupsLoop env record rest gd creates (acc ++ [(olookup gname entry.2).getD ""])
          else
            match env.createInterest entry.1 gname with
            | (rn, rid) =>
              let entry2 : String × List (String × String) := (entry.1, oset entry.2 rn rid)
              let g2 := oset g title entry2
              match olookup gname entry2.2 with
              | some gid => groupsLoop env record rest (some g2) (creates + 1) (acc ++ [gid])
              | none => (.error .keyError, some g2, creates + 1)
        | none =>
          (.ok (.inl (rejection (groupTitleMsg title) record "HG_GROUP_TITLE_NOT_FOUND")),
           gd, creates)

/-- The tail of the contact mapping (lines 357-365): prune the member
dict, attach `tags`, record the external id under the lowercased email,
return the member dict. -/
def finishMember (st : SinkState) (member : Obj) (record : Obj) : Res JVal × SinkState :=
  let cleaned := cleanObj member
  let md :=
    if truthy (jget record "tags") then oset cleaned "tags" (jgetD record "tags" (.arr []))
    else cleaned
  match jgetD md "email_address" (.str "") with
  | .str key =>
    let ids := oset st.external_ids_dict (pyLower key)
      ((olookup "externalId" record).getD (jget md "email_address"))
    (.ok (.obj md), { st with external_ids_dict := ids })
  | _ => (.error .attributeError, st)

/-- The `value == None` merge-field removal of lines 305-313 as a filter
predicate. -/
def notNone (p : String × JVal) : Bool :=
  match p.2 with
  | .null => false
  | _ => true

/-- The member-mapping (contact) branch of `process_batch_record`
(lines 207-365). -/
def contact_map (env : Env) (cfg : Obj) (st : SinkState) (record : Obj) :
    Res JVal × SinkState :=
  let email := get_email_if_exists record
  if !truthy email then
    (.ok (rejection emailRequiredMsg record "HG_EMAIL_REQUIRED"), st)
  else
    match nameStep record with
    | .error e => (.error e, st)
    | .ok (firstName, lastName) =>
      match addressStep record with
      | .error e => (.error e, st)
      | .ok (.inl rej) => (.ok rej, st)
      | .ok (.inr (addrOpt, location)) =>
        let subscribedStatus :=
          if truthy (jget record "subscribe_status") then jget record "subscribe_status"
          else jgetD cfg "subscribe_status" (.str "subscribed")
        let mf0 : Obj := [("FNAME", firstName), ("LNAME", lastName)]
        let mf1 :=
          match addrOpt with
          | some a => oset mf0 "ADDRESS" (.obj a)
          | none => mf0
        match phoneStep record mf1 with
        | .error e => (.error e, st)
        | .ok mf2 =>
          let st1 := ensureServer env st
          match handle_custom_fields env st1 (jgetD record "custom_fields" (.arr [])) mf2 with
          | (.error e, st2) => (.error e, st2)
          | (.ok mf3, st2) =>
            let mf4 := mf3.filter notNone
            let member0 : Obj :=
              [("email_address", email), ("status", subscribedStatus),
               ("merge_fields", .obj mf4), ("location", .obj location)]
            if truthy (jget record "lists") then
              let st3 := ensureGroups env st2
              match iterElems (jget record "lists") with
              | .error e => (.error e, st3)
              | .ok items =>
                match groupsLoop env record items st3.groups_dict 0 [] with
                | (res, gd1, creates) =>
                  let st4 : SinkState :=
                    { st3 with
                        groups_dict := gd1
                        interestAdds := st3.interestAdds + creates }
                  match res with
                  | .error e => (.error e, st4)
                  | .ok (.inl rej) => (.ok rej, st4)
                  | .ok (.inr ids) =>
                    let interests := ids.foldl (fun d i => oset d i (.bool true)) []
                    finishMember st4 (oset member0 "interests" (.obj interests)) record
            else finishMember st2 member0 record

/-- Python `pat in s` (substring test). -/
def strContains (s pat : String) : Bool :=
  (List.range (s.data.length + 1)).any
    (fun i => ((s.data.drop i).take pat.data.length) == pat.data)

/-- The external-id bookkeeping and return of the fallback branch
(lines 386-388). -/
def finishFallback (st : SinkState) (record record1 : Obj) : Res JVal × SinkState :=
  match jget record "email_address" with
  | .str es =>
    let ids := oset st.external_ids_dict (pyLower es)
      ((olookup "externalId" record).getD (.str es))
    (.ok (.obj record1), { st with external_ids_dict := ids })
  | _ => (.error .attributeError, st)

/-- The fallback branch of `process_batch_record` (lines 367-388), taken
when the stream is not a contact stream or `process_batch_contacts` is
falsy. -/
def fallback_map (st : SinkState) (record : Obj) : Res JVal × SinkState :=
  if !truthy (jget record "email_address") then
    (.ok (rejection emailRequiredMsg record "HG_EMAIL_REQUIRED"), st)
  else
    let record1 :=
      if truthy (jget record "status") then record
      else oset record "status_if_new" (.str "subscribed")
    match jget record1 "merge_fields" with
    | .obj mfv =>
      if truthy (jget mfv "ADDRESS") then
        match jget mfv "ADDRESS" with
        | .obj af =>
          let missing := requiredAddrFields.filter
            (fun k => match olookup k af with
                      | some v => !truthy v
                      | none => true)
          if missing.isEmpty then finishFallback st record record1
          else
            (.ok (rejection ("Missing required address fields: " ++ pyJoin "," missing ++ ".")
               record "HG_ADDRESS_MISSING_FIELDS"), st)
        | .str s =>
          if requiredAddrFields.any (fun k => strContains s k) then (.error .attributeError, st)
          else
            (.ok (rejection
               ("Missing required address fields: " ++ pyJoin "," requiredAddrFields ++ ".")
               record "HG_ADDRESS_MISSING_FIELDS"), st)
        | .arr l =>
          if requiredAddrFields.any
              (fun k => l.any (fun x => match x with | .str t => t == k | _ => false)) then
            (.error .attributeError, st)
          else
            (.ok (rejection
               ("Missing required address fields: " ++ pyJoin "," requiredAddrFields ++ ".")
               record "HG_ADDRESS_MISSING_FIELDS"), st)
        | _ => (.error .typeError, st)
      else finishFallback st record record1
    | _ => (.error .attributeError, st)

/-- `MailChimpV2Sink.process_batch_record` (lines 206-388). -/
def process_batch_record (env : Env) (cfg : Obj) (stream : String) (st : SinkState)
    (record : Obj) : Res JVal × SinkState :=
  if isContactStream stream && truthy (jgetD cfg "process_batch_contacts" (.bool true)) then
    contact_map env cfg st record
  else fallback_map st record

/-- `MailChimpV2Sink.make_batch_request` (lines 390-418).  The result
`none` is the implicit `None` return on non-contact streams. -/
def make_batch_request (env : Env) (cfg : Obj) (stream : String) (st : SinkState)
    (records : List JVal) : Res (Option Obj) × SinkState :=
  if isContactStream stream then
    match st.list_id with
    | some _ =>
      if records.isEmpty then (.ok (some []), st)
      else
        let st1 := ensureServer env st
        (.ok (some env.batchResp), { st1 with batchCalls := st1.batchCalls + 1 })
    | none =>
      (.error (.raised
         ("Failed to post because there was no list ID found for the list name "
           ++ pyStr (jget cfg "list_name") ++ "!")), st)
  else (.ok none, st)

/-- The partition of mapped results in `process_batch` (lines 470-471):
`map_errors` are the results with an `"error"` key, the rest are sent. -/
def split_mapped (rs : List JVal) : List JVal × List JVal :=
  (rs.filter (fun r => jHasKey r "error"), rs.filter (fun r => !jHasKey r "error"))

/-! ## Concrete fixtures for witnesses and counterexamples -/

/-- A concrete provider oracle. -/
def env0 : Env :=
  { serverName := "us1"
    mergeFieldsResp := [("First Name", "FNAME"), ("Address", "ADDRESS")]
    addMergeField := fun v => match v with | .str s => (s, "MMERGE9") | _ => ("X", "MMERGE9")
    categories := [("VIP", "cat1")]
    interestsFor := fun _ => [("Gold", "int1")]
    createInterest := fun _ n => (n, "newid")
    batchResp := [] }

/-- A concrete sink state with the list resolved and the merge-field cache
loaded. -/
def st0 : SinkState :=
  { server := none
    list_id := some "L1"
    custom_fields := some [("First Name", "FNAME"), ("Address", "ADDRESS")]
    groups_dict := none
    external_ids_dict := []
    mergeFieldFetches := 0
    mergeFieldAdds := 0
    categoryFetches := 0
    interestFetches := 0
    interestAdds := 0
    batchCalls := 0 }

/-! ## C1: missing email -/

/-- C1: on the contact batch path, a record whose resolved email
(`email_address` then `email`, trimmed) is missing or empty is rejected
locally with `HG_EMAIL_REQUIRED` carrying the record's `externalId`; the
sink state — schema caches, external-id index and every provider-call
counter — is unchanged, and the rejection carries an `"error"` key, so
the `process_batch` split keeps it out of the dispatched batch. -/
theorem C1_email_required (env : Env) (cfg : Obj) (stream : String) (st : SinkState)
    (record : Obj)
    (hcontact : (isContactStream stream &&
      truthy (jgetD cfg "process_batch_contacts" (.bool true))) = true)
    (hemail : truthy (get_email_if_exists record) = false) :
    process_batch_record env cfg stream st record =
      (.ok (rejection emailRequiredMsg record "HG_EMAIL_REQUIRED"), st) ∧
    jHasKey (rejection emailRequiredMsg record "HG_EMAIL_REQUIRED") "error" = true := by
  constructor
  · simp [process_batch_record, hcontact, contact_map, hemail]
  · simp [rejection, jHasKey, olookup]

/-- Witness for C1 at a concrete whitespace-only email. -/
theorem C1_email_required_witness :
    process_batch_record env0 [] "contacts" st0 [("email", .str " ")] =
      (.ok (rejection emailRequiredMsg [("email", .str " ")] "HG_EMAIL_REQUIRED"), st0) :=
  (C1_email_required env0 [] "contacts" st0 [("email", .str " ")]
    (by decide) (by decide)).1

/-! ## C7: dispatch guards -/

/-- C7: on the contact dispatch path, a missing list id raises an
exception (fatal — aborts the batch) and no batch call is made (the state,
including the batch-call counter, is unchanged); with a resolved list id
and an empty payload list the dispatcher returns an empty result without
any network call. -/
theorem C7_dispatch_guards (env : Env) (cfg : Obj) (stream : String) (st : SinkState)
    (records : List JVal) (hcontact : isContactStream stream = true) :
    (st.list_id = none →
      make_batch_request env cfg stream st records =
        (.error (.raised
          ("Failed to post because there was no list ID found for the list name "
            ++ pyStr (jget cfg "list_name") ++ "!")), st)) ∧
    (∀ lid, st.list_id = some lid → records = [] →
      make_batch_request env cfg stream st records = (.ok (some []), st)) := by
  constructor
  · intro h
    simp [make_batch_request, hcontact, h]
  · intro lid h hr
    subst hr
    simp [make_batch_request, hcontact, h]

/-- Witness for C7 at a concrete state. -/
theorem C7_dispatch_guards_witness :
    make_batch_request env0 [] "contacts" { st0 with list_id := none } [] =
      (.error (.raised
        "Failed to post because there was no list ID found for the list name None!"),
       { st0 with list_id := none }) ∧
    make_batch_request env0 [] "contacts" st0 [] = (.ok (some []), st0) := by
  constructor
  · have h := (C7_dispatch_guards env0 [] "contacts" { st0 with list_id := none } []
      (by decide)).1 (by rfl)
    simpa using h
  · exact (C7_dispatch_guards env0 [] "contacts" st0 [] (by decide)).2 "L1" rfl rfl

/-! ## C5: merge-field resolution -/

theorem olookup_append_right (l : List (String × α)) (k : String) (v : α)
    (h : olookup k l = none) : olookup k (l ++ [(k, v)]) = some v := by
  induction l with
  | nil => simp [olookup]
  | cons p rest ih =>
    obtain ⟨k₀, v₀⟩ := p
    by_cases hk : k₀ = k
    · rw [olookup, if_pos hk] at h; exact Option.noConfusion h
    · rw [olookup, if_neg hk] at h
      rw [List.cons_append, olookup, if_neg hk]
      exact ih h

theorem oset_append_of_absent (l : List (String × α)) (k : String) (v : α)
    (h : olookup k l = none) : oset l k v = l ++ [(k, v)] := by
  induction l with
  | nil => simp [oset]
  | cons p rest ih =>
    obtain ⟨k₀, v₀⟩ := p
    by_cases hk : k₀ = k
    · rw [olookup, if_pos hk] at h; exact Option.noConfusion h
    · rw [olookup, if_neg hk] at h
      rw [oset, if_neg hk, List.cons_append, ih h]

/-- C5: with the merge-field cache loaded, resolving a custom field whose
name matches a known merge-field tag, or a known merge-field name,
performs no provisioning call (the state is unchanged) and keys the value
by the existing tag; a brand-new name triggers exactly one provisioning
call, caches the `name ↦ tag` pair, and a second resolution of the same
name in the same session uses the cached tag with no further call. -/
theorem C5_merge_field_resolution (env : Env) (st : SinkState)
    (cf : List (String × String)) (n : String) (v : JVal) (mf : Obj)
    (hcf : st.custom_fields = some cf) :
    ((cf.map Prod.snd).contains n = true →
      handle_custom_fields env st (.arr [.obj [("name", .str n), ("value", v)]]) mf =
        (.ok (oset mf n v), st)) ∧
    (∀ t, (cf.map Prod.snd).contains n = false → olookup n cf = some t →
      handle_custom_fields env st (.arr [.obj [("name", .str n), ("value", v)]]) mf =
        (.ok (oset mf t v), st)) ∧
    (∀ rt, (cf.map Prod.snd).contains n = false → olookup n cf = none →
      env.addMergeField (.str n) = (n, rt) → rt ≠ n →
      (handle_custom_fields env st (.arr [.obj [("name", .str n), ("value", v)]]) mf =
        (.ok mf, { st with custom_fields := some (cf ++ [(n, rt)]),
                           mergeFieldAdds := st.mergeFieldAdds + 1 }) ∧
       ∀ (st₂ : SinkState) (mf' : Obj) (v' : JVal),
         st₂.custom_fields = some (cf ++ [(n, rt)]) →
         handle_custom_fields env st₂ (.arr [.obj [("name", .str n), ("value", v')]]) mf' =
           (.ok (oset mf' rt v'), st₂))) := by
  obtain ⟨sv, li, cfield, gd, ids, c1, c2, c3, c4, c5, c6⟩ := st
  simp only at hcf
  subst hcf
  refine ⟨?_, ?_, ?_⟩
  · intro htag
    have htag' : n ∈ cf.map Prod.snd := by simpa using htag
    simp [handle_custom_fields, iterElems, cfLoop, jget, olookup, htag']
  · intro t htag hname
    have htag' : n ∉ cf.map Prod.snd := by simpa using htag
    have hmem' : n ∈ cf.map Prod.fst := by
      clear htag htag'
      induction cf with
      | nil => exact absurd hname (by simp [olookup])
      | cons p rest ih =>
        obtain ⟨k₀, v₀⟩ := p
        by_cases hk : k₀ = n
        · simp [hk]
        · rw [olookup, if_neg hk] at hname
          simp only [List.map_cons, List.mem_cons]
          exact Or.inr (ih hname)
    simp [handle_custom_fields, iterElems, cfLoop, jget, olookup, htag', hmem', hname]
  · intro rt htag hname hadd hne
    have htag' : n ∉ cf.map Prod.snd := by simpa using htag
    have hmem' : n ∉ cf.map Prod.fst := by
      clear htag htag'
      induction cf with
      | nil => simp
      | cons p rest ih =>
        obtain ⟨k₀, v₀⟩ := p
        by_cases hk : k₀ = n
        · rw [olookup, if_pos hk] at hname; exact Option.noConfusion hname
        · rw [olookup, if_neg hk] at hname
          simp only [List.map_cons, List.mem_cons]
          push_neg
          exact ⟨fun h => hk h.symm, ih hname⟩
    constructor
    · simp [handle_custom_fields, iterElems, cfLoop, jget, olookup, htag', hmem', hadd,
        oset_append_of_absent cf n rt hname]
    · intro st₂ mf' v' hcf₂
      obtain ⟨sv₂, li₂, cfield₂, gd₂, ids₂, d1, d2, d3, d4, d5, d6⟩ := st₂
      simp only at hcf₂
      subst hcf₂
      have htag₂ : n ∉ (cf ++ [(n, rt)]).map Prod.snd := by
        simp only [List.map_append, List.mem_append]
        push_neg
        exact ⟨htag', by simpa using fun h => hne h.symm⟩
      have hmem₂ : n ∈ (cf ++ [(n, rt)]).map Prod.fst := by simp
      have hlook₂ : olookup n (cf ++ [(n, rt)]) = some rt :=
        olookup_append_right cf n rt hname
      have hcond : ¬(((cf ++ [(n, rt)]).map Prod.snd).contains n = true) := by
        intro hcontains
        exact htag₂ (by simpa using hcontains)
      simp [handle_custom_fields, iterElems, cfLoop, jget, olookup, hlook₂]
      rw [if_neg hcond]
      simp

/-- Witness for C5 at concrete names. -/
theorem C5_merge_field_resolution_witness :
    handle_custom_fields env0 st0
        (.arr [.obj [("name", .str "FNAME"), ("value", .str "Jo")]]) [] =
      (.ok [("FNAME", .str "Jo")], st0) ∧
    handle_custom_fields env0 st0
        (.arr [.obj [("name", .str "First Name"), ("value", .str "Jo")]]) [] =
      (.ok [("FNAME", .str "Jo")], st0) ∧
    handle_custom_fields env0 st0
        (.arr [.obj [("name", .str "Birthday"), ("value", .str "May")]]) [] =
      (.ok [],
       { st0 with
           custom_fields :=
             some [("First Name", "FNAME"), ("Address", "ADDRESS"), ("Birthday", "MMERGE9")]
           mergeFieldAdds := 1 }) := by
  have h := C5_merge_field_resolution env0 st0
    [("First Name", "FNAME"), ("Address", "ADDRESS")] "FNAME" (.str "Jo") [] (by rfl)
  have h2 := C5_merge_field_resolution env0 st0
    [("First Name", "FNAME"), ("Address", "ADDRESS")] "First Name" (.str "Jo") [] (by rfl)
  have h3 := C5_merge_field_resolution env0 st0
    [("First Name", "FNAME"), ("Address", "ADDRESS")] "Birthday" (.str "May") [] (by rfl)
  refine ⟨?_, ?_, ?_⟩
  · have := h.1 (by decide)
    simpa [oset] using this
  · have := h2.2.1 "FNAME" (by decide) (by decide)
    simpa [oset] using this
  · have := (h3.2.2 "MMERGE9" (by decide) (by decide) (by decide) (by decide)).1
    simpa using this

/-! ## Shape lemmas for the contact mapping -/

/-- `v` is one of the locally-built rejection dictionaries for `record`. -/
def isRejectionOf (v : JVal) (record : Obj) : Prop :=
  ∃ msg code, v = rejection msg record code

theorem handle_custom_fields_ext (env : Env) (st : SinkState) (rcf : JVal) (mf : Obj) :
    (handle_custom_fields env st rcf mf).2.external_ids_dict = st.external_ids_dict := by
  unfold handle_custom_fields
  rcases hcf : st.custom_fields with _ | cf <;>
    rcases hit : iterElems rcf with e | fields <;>
      simp [hcf, hit]

theorem ensureGroups_ext (env : Env) (st : SinkState) :
    (ensureGroups env st).external_ids_dict = st.external_ids_dict := by
  unfold ensureGroups
  rcases hgd : st.groups_dict with _ | g
  · rcases hli : st.list_id with _ | lid
    · simp [hgd, hli]
    · by_cases hl : lid = "" <;> simp [hgd, hli, hl]
  · simp [hgd]

/-- The outcome and external-id transition of `finishMember`, for an
arbitrary member dict: any returned member is (up to the `tags`
re-assignment) the pruned dict, and the index is either untouched or a
single `oset`. -/
theorem finishMember_cases (st : SinkState) (member record : Obj) :
    (∀ v, (finishMember st member record).1 = .ok v →
       ∃ kvs, v = .obj kvs ∧
         ∀ k, k ≠ "tags" → olookup k kvs = olookup k (cleanObj member)) ∧
    ((finishMember st member record).2.external_ids_dict = st.external_ids_dict ∨
      ∃ key val, (finishMember st member record).2.external_ids_dict =
        oset st.external_ids_dict key val) := by
  unfold finishMember
  by_cases htags : truthy (jget record "tags") = true
  · simp only [htags, if_true]
    split
    · constructor
      · intro v hv
        simp only at hv
        refine ⟨_, (Except.ok.inj hv).symm, ?_⟩
        intro k hk
        exact olookup_oset_ne _ _ _ _ (fun h => hk h.symm)
      · right
        exact ⟨_, _, rfl⟩
    · constructor
      · intro v hv
        exact absurd hv (by simp)
      · left
        rfl
  · simp only [htags, if_false, Bool.false_eq_true]
    split
    · constructor
      · intro v hv
        simp only at hv
        exact ⟨_, (Except.ok.inj hv).symm, fun k _ => rfl⟩
      · right
        exact ⟨_, _, rfl⟩
    · constructor
      · intro v hv
        exact absurd hv (by simp)
      · left
        rfl

/-- Replace the external-id index of a sink state. -/
def setIds (st : SinkState) (ids : Obj) : SinkState := { st with external_ids_dict := ids }

/-- `finishMember` on a member whose `email_address` head is a string
always succeeds, returns the pruned (and possibly `tags`-extended) dict,
and records `lowercase(email) ↦ externalId-or-email`. -/
theorem finishMember_str (st : SinkState) (record : Obj) (es : String) (rest : Obj) :
    ∃ kvs,
      finishMember st (("email_address", .str es) :: rest) record =
        (.ok (.obj kvs),
         setIds st (oset st.external_ids_dict (pyLower es)
           ((olookup "externalId" record).getD (.str es)))) ∧
      olookup "email_address" kvs = some (.str es) ∧
      ∀ k, k ≠ "tags" →
        olookup k kvs = olookup k (cleanObj (("email_address", .str es) :: rest)) := by
  unfold setIds
  unfold finishMember
  have hclean : cleanObj (("email_address", .str es) :: rest) =
      ("email_address", .str es) :: cleanObj rest := cleanObj_cons_str _ _ _
  by_cases htags : truthy (jget record "tags") = true
  · refine ⟨oset (cleanObj (("email_address", .str es) :: rest)) "tags"
      (jgetD record "tags" (.arr [])), ?_, ?_, ?_⟩
    · have hget : jgetD (oset (cleanObj (("email_address", .str es) :: rest)) "tags"
          (jgetD record "tags" (.arr []))) "email_address" (.str "") = .str es := by
        unfold jgetD
        rw [olookup_oset_ne _ _ _ _ (by decide), hclean, olookup, if_pos rfl]
        rfl
      have hget2 : jget (oset (cleanObj (("email_address", .str es) :: rest)) "tags"
          (jgetD record "tags" (.arr []))) "email_address" = .str es := by
        unfold jget
        rw [olookup_oset_ne _ _ _ _ (by decide), hclean, olookup, if_pos rfl]
        rfl
      simp only [htags, if_true, hget, hget2]
    · rw [olookup_oset_ne _ _ _ _ (by decide), hclean, olookup, if_pos rfl]
    · intro k hk
      exact olookup_oset_ne _ _ _ _ (fun h => hk h.symm)
  · refine ⟨cleanObj (("email_address", .str es) :: rest), ?_, ?_, ?_⟩
    · have hget : jgetD (cleanObj (("email_address", .str es) :: rest))
          "email_address" (.str "") = .str es := by
        unfold jgetD
        rw [hclean, olookup, if_pos rfl]
        rfl
      have hget2 : jget (cleanObj (("email_address", .str es) :: rest))
          "email_address" = .str es := by
        unfold jget
        rw [hclean, olookup, if_pos rfl]
        rfl
      simp only [htags, if_false, Bool.false_eq_true, hget, hget2]
    · rw [hclean, olookup, if_pos rfl]
    · intro k _
      rfl

theorem addressStep_inl (record : Obj) (v : JVal)
    (h : addressStep record = .ok (.inl v)) : isRejectionOf v record := by
  unfold addressStep at h
  by_cases ht : truthy (jget record "addresses") = true
  · rw [if_pos ht] at h
    rcases ha : jget record "addresses" with _ | b | q | s | l | kvs <;> rw [ha] at h <;>
      simp only at h
    · exact ⟨addressFormatMsg, "HG_ADDRESS_FORMAT_ERROR",
        (Sum.inl.inj (Except.ok.inj h)).symm⟩
    · exact ⟨addressFormatMsg, "HG_ADDRESS_FORMAT_ERROR",
        (Sum.inl.inj (Except.ok.inj h)).symm⟩
    · exact ⟨addressFormatMsg, "HG_ADDRESS_FORMAT_ERROR",
        (Sum.inl.inj (Except.ok.inj h)).symm⟩
    · exact ⟨addressFormatMsg, "HG_ADDRESS_FORMAT_ERROR",
        (Sum.inl.inj (Except.ok.inj h)).symm⟩
    · rcases l with _ | ⟨ad, tl⟩
      · exact absurd h (by simp)
      · rcases ad with _ | b | q | s | l2 | adObj <;> simp only at h
        · exact absurd h (by simp)
        · exact absurd h (by simp)
        · exact absurd h (by simp)
        · exact absurd h (by simp)
        · exact absurd h (by simp)
        · rcases hf1 : pyFloat (jgetD adObj "latitude" (.num 0)) with e | lat <;>
            rw [hf1] at h
          · exact absurd h (by simp)
          · rcases hf2 : pyFloat (jgetD adObj "longitude" (.num 0)) with e | lon <;>
              rw [hf2] at h
            · exact absurd h (by simp)
            · exact absurd h (by simp)
    · exact ⟨addressFormatMsg, "HG_ADDRESS_FORMAT_ERROR",
        (Sum.inl.inj (Except.ok.inj h)).symm⟩
  · rw [if_neg ht] at h
    exact absurd h (by simp)

theorem groupsLoop_inl (env : Env) (record : Obj) (items : List JVal) :
    ∀ (gd : Option GroupsDict) (creates : ℕ) (acc : List String) (v : JVal),
      (groupsLoop env record items gd creates acc).1 = .ok (.inl v) →
      isRejectionOf v record := by
  induction items with
  | nil =>
    intro gd creates acc v h
    rw [groupsLoop] at h
    exact absurd h (by simp)
  | cons it rest ih =>
    intro gd creates acc v h
    rcases it with _ | b | q | s | l | kvs
    case str =>
      rw [groupsLoop] at h
      simp only at h
      rcases hsp : pySplitChar s '/' with _ | ⟨a, _ | ⟨b, _ | ⟨c, tl⟩⟩⟩
      case cons.cons.nil =>
        -- exactly two parts: continue into the group resolution
        rw [hsp] at h
        simp only at h
        rcases gd with _ | g
        · simp only at h
          exact absurd h (by simp)
        · simp only at h
          rcases hti : olookup a g with _ | entry <;> rw [hti] at h
          · simp only at h
            exact ⟨_, _, (Sum.inl.inj (Except.ok.inj h)).symm⟩
          · simp only at h
            by_cases hex : truthyIdOpt (olookup b entry.2) = true
            · rw [if_pos hex] at h
              exact ih _ _ _ _ h
            · rw [if_neg hex] at h
              rcases hlk : olookup b (oset entry.2 (env.createInterest entry.1 b).1
                  (env.createInterest entry.1 b).2) with _ | gid <;> rw [hlk] at h
              · exact absurd h (by simp)
              · exact ih _ _ _ _ h
      all_goals
        rw [hsp] at h
        simp only at h
        exact ⟨_, _, (Sum.inl.inj (Except.ok.inj h)).symm⟩
    all_goals
      simp only [groupsLoop] at h
      exact ⟨_, _, (Sum.inl.inj (Except.ok.inj h)).symm⟩

/-- Combined facts about a successful `finishMember` on a member whose
first key is `email_address`: index transition relative to a base state
and the shape of the returned payload. -/
theorem finishMember_leaf (st0 stf : SinkState) (record : Obj) (email : JVal) (tail : Obj)
    (v : JVal) (st' : SinkState)
    (hext : stf.external_ids_dict = st0.external_ids_dict)
    (herr : olookup "error" (("email_address", email) :: tail) = none)
    (hec : olookup "error_code" (("email_address", email) :: tail) = none)
    (h : finishMember stf (("email_address", email) :: tail) record = (.ok v, st')) :
    (st'.external_ids_dict = st0.external_ids_dict ∨
      ∃ key val, st'.external_ids_dict = oset st0.external_ids_dict key val) ∧
    ∃ kvs, v = .obj kvs ∧ olookup "error" kvs = none ∧ olookup "error_code" kvs = none ∧
      ∀ es, email = .str es →
        olookup "email_address" kvs = some (.str es) ∧
        st'.external_ids_dict =
          oset st0.external_ids_dict (pyLower es)
            ((olookup "externalId" record).getD (.str es)) := by
  have hc := finishMember_cases stf (("email_address", email) :: tail) record
  have h1 : (finishMember stf (("email_address", email) :: tail) record).1 = .ok v := by
    rw [h]
  have h2 : (finishMember stf (("email_address", email) :: tail) record).2 = st' := by
    rw [h]
  obtain ⟨kvs, hkvs, hlk⟩ := hc.1 v h1
  constructor
  · rcases hc.2 with he | ⟨key, val, he⟩
    · left; rw [← h2, he, hext]
    · right; exact ⟨key, val, by rw [← h2, he, hext]⟩
  · refine ⟨kvs, hkvs, ?_, ?_, ?_⟩
    · rw [hlk "error" (by decide)]
      exact cleanObj_lookup_none _ _ herr
    · rw [hlk "error_code" (by decide)]
      exact cleanObj_lookup_none _ _ hec
    · intro es hes
      subst hes
      obtain ⟨kvs₂, hfin, hlook₂, _⟩ := finishMember_str stf record es tail
      rw [hfin] at h
      injection h with hv2 hst2
      have hveq : JVal.obj kvs = JVal.obj kvs₂ := by
        rw [← hkvs, ← Except.ok.inj hv2]
      constructor
      · rw [JVal.obj.inj hveq]
        exact hlook₂
      · rw [← hst2]
        simp [setIds, hext]

theorem oset_interests (e s m l iv : JVal) :
    oset [("email_address", e), ("status", s), ("merge_fields", m), ("location", l)]
      "interests" iv =
    [("email_address", e), ("status", s), ("merge_fields", m), ("location", l),
     ("interests", iv)] := by
  simp [oset]

theorem ensureServer_ext (env : Env) (st : SinkState) :
    (ensureServer env st).external_ids_dict = st.external_ids_dict := by
  unfold ensureServer
  rcases st.server with _ | s <;> rfl

theorem finishMember_ext_eq (stf : SinkState) (member record : Obj) (r : Res JVal)
    (st' : SinkState) (h : finishMember stf member record = (r, st')) :
    st'.external_ids_dict = stf.external_ids_dict ∨
    ∃ key val, st'.external_ids_dict = oset stf.external_ids_dict key val := by
  have hc := (finishMember_cases stf member record).2
  rw [h] at hc
  exact hc

/-- Master shape lemma for the contact mapping: the external-id index is
either untouched or extended/overwritten by a single assignment; and every
`.ok` result is a local rejection or a pruned member dict without
`error`/`error_code` keys whose `email_address` is the resolved email and
whose mapping was recorded in the index. -/
theorem contact_map_master (env : Env) (cfg : Obj) (st : SinkState) (record : Obj)
    (r : Res JVal) (st' : SinkState)
    (h : contact_map env cfg st record = (r, st')) :
    (st'.external_ids_dict = st.external_ids_dict ∨
      ∃ key val, st'.external_ids_dict = oset st.external_ids_dict key val) ∧
    ∀ v, r = .ok v →
      isRejectionOf v record ∨
      (∃ kvs, v = .obj kvs ∧ olookup "error" kvs = none ∧ olookup "error_code" kvs = none ∧
        ∀ es, get_email_if_exists record = .str es →
          olookup "email_address" kvs = some (.str es) ∧
          st'.external_ids_dict =
            oset st.external_ids_dict (pyLower es)
              ((olookup "externalId" record).getD (.str es))) := by
  unfold contact_map at h
  simp only [] at h
  by_cases hcond : (!truthy (get_email_if_exists record)) = true
  · -- missing email: local rejection, state unchanged
    rw [if_pos hcond] at h
    injection h with h1 h2
    subst h2
    refine ⟨Or.inl rfl, fun v hv => ?_⟩
    rw [← h1] at hv
    exact Or.inl ⟨emailRequiredMsg, "HG_EMAIL_REQUIRED", (Except.ok.inj hv).symm⟩
  · rw [if_neg hcond] at h
    split at h
    · -- nameStep raises
      injection h with h1 h2
      subst h2
      exact ⟨Or.inl rfl, fun v hv => absurd (h1.trans hv) (by simp)⟩
    · -- nameStep ok
      split at h
      · -- addressStep raises
        injection h with h1 h2
        subst h2
        exact ⟨Or.inl rfl, fun v hv => absurd (h1.trans hv) (by simp)⟩
      · -- addressStep returns the format rejection
        rename_i sres heqAddr
        injection h with h1 h2
        subst h2
        refine ⟨Or.inl rfl, fun v hv => ?_⟩
        rw [← h1] at hv
        have hv' := Except.ok.inj hv
        subst hv'
        exact Or.inl (addressStep_inl record sres heqAddr)
      · -- addressStep ok
        split at h
        · -- phoneStep raises
          injection h with h1 h2
          subst h2
          exact ⟨Or.inl rfl, fun v hv => absurd (h1.trans hv) (by simp)⟩
        · -- phoneStep ok
          rename_i mf2 heqPhone
          split at h
          · -- handle_custom_fields raises
            rename_i e st2 heqCf
            injection h with h1 h2
            subst h2
            have hst2ext : st2.external_ids_dict = st.external_ids_dict := by
              have hx := handle_custom_fields_ext env (ensureServer env st)
                (jgetD record "custom_fields" (.arr [])) mf2
              rw [heqCf] at hx
              rw [hx, ensureServer_ext]
            exact ⟨Or.inl hst2ext, fun v hv => absurd (h1.trans hv) (by simp)⟩
          · -- handle_custom_fields ok
            rename_i mf3 st2 heqCf
            have hst2ext : st2.external_ids_dict = st.external_ids_dict := by
              have hx := handle_custom_fields_ext env (ensureServer env st)
                (jgetD record "custom_fields" (.arr [])) mf2
              rw [heqCf] at hx
              rw [hx, ensureServer_ext]
            by_cases hlists : truthy (jget record "lists") = true
            · -- record has truthy `lists`
              rw [if_pos hlists] at h
              have hst3ext : (ensureGroups env st2).external_ids_dict =
                  st.external_ids_dict := by
                rw [ensureGroups_ext, hst2ext]
              split at h
              · -- iterating `lists` raises
                injection h with h1 h2
                subst h2
                exact ⟨Or.inl hst3ext, fun v hv => absurd (h1.trans hv) (by simp)⟩
              · -- iterable `lists`
                rename_i items heqIter
                rcases hgl : groupsLoop env record items
                    (ensureGroups env st2).groups_dict 0 [] with ⟨res2, gd1, creates⟩
                rw [hgl] at h
                split at h
                · -- the loop raises
                  injection h with h1 h2
                  subst h2
                  refine ⟨Or.inl ?_, fun v hv => absurd (h1.trans hv) (by simp)⟩
                  exact hst3ext
                · -- the loop returns a rejection
                  rename_i rej heqRes
                  injection h with h1 h2
                  subst h2
                  refine ⟨Or.inl hst3ext, fun v hv => ?_⟩
                  rw [← h1] at hv
                  have hv' := Except.ok.inj hv
                  subst hv'
                  refine Or.inl (groupsLoop_inl env record items
                    ((ensureGroups env st2).groups_dict) 0 [] rej ?_)
                  rw [hgl]
                  exact heqRes
                · -- the loop resolves the interest ids
                  rename_i ids heqRes
                  rw [oset_interests] at h
                  rcases r with e | v
                  · refine ⟨?_, fun v hv => absurd hv (by simp)⟩
                    rcases finishMember_ext_eq _ _ _ _ _ h with he | ⟨key, val, he⟩
                    · exact Or.inl (he.trans hst3ext)
                    · exact Or.inr ⟨key, val,
                        he.trans (congrArg (fun x => oset x key val) hst3ext)⟩
                  · have hleaf := finishMember_leaf st _ record
                      (get_email_if_exists record) _ v st' (by exact hst3ext)
                      (by simp [olookup]) (by simp [olookup]) h
                    exact ⟨hleaf.1, fun v2 hv2 =>
                      Or.inr ((Except.ok.inj hv2) ▸ hleaf.2)⟩
            · -- no `lists` on the record
              rw [if_neg hlists] at h
              rcases r with e | v
              · refine ⟨?_, fun v hv => absurd hv (by simp)⟩
                rcases finishMember_ext_eq _ _ _ _ _ h with he | ⟨key, val, he⟩
                · exact Or.inl (he.trans hst2ext)
                · exact Or.inr ⟨key, val,
                    he.trans (congrArg (fun x => oset x key val) hst2ext)⟩
              · have hleaf := finishMember_leaf st st2 record
                  (get_email_if_exists record) _ v st' hst2ext
                  (by simp [olookup]) (by simp [olookup]) h
                exact ⟨hleaf.1, fun v2 hv2 =>
                  Or.inr ((Except.ok.inj hv2) ▸ hleaf.2)⟩

/-- Outcome and index transition of `finishFallback`: success implies the
record's `email_address` is a string and the index records
`lowercase(email) ↦ externalId-or-email`. -/
theorem finishFallback_master (st : SinkState) (record record1 : Obj) (r : Res JVal)
    (st' : SinkState) (h : finishFallback st record record1 = (r, st')) :
    (st'.external_ids_dict = st.external_ids_dict ∨
      ∃ key val, st'.external_ids_dict = oset st.external_ids_dict key val) ∧
    ∀ v, r = .ok v →
      ∃ es, jget record "email_address" = .str es ∧
        st'.external_ids_dict =
          oset st.external_ids_dict (pyLower es)
            ((olookup "externalId" record).getD (.str es)) := by
  unfold finishFallback at h
  split at h
  · rename_i es heqEm
    injection h with h1 h2
    subst h2
    refine ⟨Or.inr ⟨_, _, rfl⟩, fun v hv => ⟨es, heqEm, rfl⟩⟩
  · injection h with h1 h2
    subst h2
    exact ⟨Or.inl rfl, fun v hv => absurd (h1.trans hv) (by simp)⟩

/-- Master shape lemma for the fallback mapping. -/
theorem fallback_map_master (st : SinkState) (record : Obj) (r : Res JVal)
    (st' : SinkState) (h : fallback_map st record = (r, st')) :
    (st'.external_ids_dict = st.external_ids_dict ∨
      ∃ key val, st'.external_ids_dict = oset st.external_ids_dict key val) ∧
    ∀ v, r = .ok v →
      isRejectionOf v record ∨
      ∃ es, jget record "email_address" = .str es ∧
        st'.external_ids_dict =
          oset st.external_ids_dict (pyLower es)
            ((olookup "externalId" record).getD (.str es)) := by
  unfold fallback_map at h
  simp only [] at h
  by_cases hcond : (!truthy (jget record "email_address")) = true
  · rw [if_pos hcond] at h
    injection h with h1 h2
    subst h2
    refine ⟨Or.inl rfl, fun v hv => ?_⟩
    rw [← h1] at hv
    exact Or.inl ⟨emailRequiredMsg, "HG_EMAIL_REQUIRED", (Except.ok.inj hv).symm⟩
  · rw [if_neg hcond] at h
    split at h
    · -- merge_fields is a dict
      rename_i mfv heqMf
      by_cases haddr : truthy (jget mfv "ADDRESS") = true
      · rw [if_pos haddr] at h
        split at h
        · -- ADDRESS is a dict: check required fields
          rename_i af heqAf
          split at h
          · -- nothing missing: proceed
            have hff := finishFallback_master _ _ _ _ _ h
            refine ⟨hff.1, fun v hv => ?_⟩
            exact Or.inr (hff.2 v hv)
          · -- missing fields: rejection
            injection h with h1 h2
            subst h2
            refine ⟨Or.inl rfl, fun v hv => ?_⟩
            rw [← h1] at hv
            exact Or.inl ⟨_, "HG_ADDRESS_MISSING_FIELDS", (Except.ok.inj hv).symm⟩
        · -- ADDRESS is a string
          rename_i s heqAf
          split at h
          · injection h with h1 h2
            subst h2
            exact ⟨Or.inl rfl, fun v hv => absurd (h1.trans hv) (by simp)⟩
          · injection h with h1 h2
            subst h2
            refine ⟨Or.inl rfl, fun v hv => ?_⟩
            rw [← h1] at hv
            exact Or.inl ⟨_, "HG_ADDRESS_MISSING_FIELDS", (Except.ok.inj hv).symm⟩
        · -- ADDRESS is a list
          rename_i l heqAf
          split at h
          · injection h with h1 h2
            subst h2
            exact ⟨Or.inl rfl, fun v hv => absurd (h1.trans hv) (by simp)⟩
          · injection h with h1 h2
            subst h2
            refine ⟨Or.inl rfl, fun v hv => ?_⟩
            rw [← h1] at hv
            exact Or.inl ⟨_, "HG_ADDRESS_MISSING_FIELDS", (Except.ok.inj hv).symm⟩
        · -- ADDRESS has another truthy shape: TypeError
          injection h with h1 h2
          subst h2
          exact ⟨Or.inl rfl, fun v hv => absurd (h1.trans hv) (by simp)⟩
      · rw [if_neg haddr] at h
        have hff := finishFallback_master _ _ _ _ _ h
        exact ⟨hff.1, fun v hv => Or.inr (hff.2 v hv)⟩
    · -- merge_fields is not a dict: AttributeError
      injection h with h1 h2
      subst h2
      exact ⟨Or.inl rfl, fun v hv => absurd (h1.trans hv) (by simp)⟩

/-- The email identity used for the ExternalIdIndex: `get_email_if_exists`
on the contact batch path, the raw `email_address` on the fallback path. -/
def resolved_email (contactBatch : Bool) (record : Obj) : JVal :=
  if contactBatch then get_email_if_exists record else jget record "email_address"

/-- C9: for every record (either path), `process_batch_record` never
removes an entry from the ExternalIdIndex — any present key stays present,
so the index grows monotonically — and every successful (non-rejected)
mapping whose resolved email is a string sets the entry for the lowercased
email to the record's `externalId`, or to the email itself when no
`externalId` key is present, before the payload is returned. -/
theorem C9_external_id_index (env : Env) (cfg : Obj) (stream : String) (st : SinkState)
    (record : Obj) (r : Res JVal) (st' : SinkState)
    (h : process_batch_record env cfg stream st record = (r, st')) :
    (∀ k, (olookup k st.external_ids_dict).isSome = true →
      (olookup k st'.external_ids_dict).isSome = true) ∧
    ∀ v, r = .ok v →
      isRejectionOf v record ∨
      ∀ es, resolved_email (isContactStream stream &&
              truthy (jgetD cfg "process_batch_contacts" (.bool true))) record = .str es →
        olookup (pyLower es) st'.external_ids_dict =
          some ((olookup "externalId" record).getD (.str es)) := by
  unfold process_batch_record at h
  by_cases hc : (isContactStream stream &&
      truthy (jgetD cfg "process_batch_contacts" (.bool true))) = true
  · rw [if_pos hc] at h
    have hm := contact_map_master env cfg st record r st' h
    constructor
    · intro k hk
      rcases hm.1 with he | ⟨key, val, he⟩
      · rw [he]; exact hk
      · rw [he]; exact olookup_oset_isSome _ _ _ _ hk
    · intro v hv
      rcases hm.2 v hv with hrej | ⟨kvs, _, _, _, hes⟩
      · exact Or.inl hrej
      · refine Or.inr fun es hesr => ?_
        rw [resolved_email, if_pos hc] at hesr
        rw [(hes es hesr).2]
        exact olookup_oset_self _ _ _
  · rw [if_neg hc] at h
    have hm := fallback_map_master st record r st' h
    constructor
    · intro k hk
      rcases hm.1 with he | ⟨key, val, he⟩
      · rw [he]; exact hk
      · rw [he]; exact olookup_oset_isSome _ _ _ _ hk
    · intro v hv
      rcases hm.2 v hv with hrej | ⟨es₀, hes₀, hids⟩
      · exact Or.inl hrej
      · refine Or.inr fun es hesr => ?_
        rw [resolved_email, if_neg hc] at hesr
        have : es₀ = es := JVal.str.inj (hes₀.symm.trans hesr)
        subst this
        rw [hids]
        exact olookup_oset_self _ _ _

/-- A concrete record for the witnesses of C9 and C10. -/
def rec9 : Obj := [("email_address", .str "A@x.com")]

/-- The member payload produced from `rec9` by the contact mapping. -/
def payload9 : JVal :=
  .obj [("email_address", .str "A@x.com"), ("status", .str "subscribed"),
        ("merge_fields", .obj [("FNAME", .str ""), ("LNAME", .str "")]),
        ("location", .obj [("latitude", .num 0), ("longitude", .num 0), ("gmtoff", .num 0),
          ("dstoff", .num 0), ("country_code", .str ""), ("timezone", .str ""),
          ("region", .str "")])]

/-- Witness for C9 at a concrete record. -/
theorem C9_external_id_index_witness :
    olookup "a@x.com"
      ((process_batch_record env0 [] "contacts" st0 rec9).2).external_ids_dict =
      some (.str "A@x.com") := by
  have h9 := (C9_external_id_index env0 [] "contacts" st0 rec9
      (.ok payload9) (process_batch_record env0 [] "contacts" st0 rec9).2
      (by rfl)).2 payload9 rfl
  rcases h9 with hrej | himp
  · obtain ⟨m, c, he⟩ := hrej
    exact absurd he (by simp [payload9, rejection])
  · exact himp "A@x.com" (by rfl)

/-- A small partition fact: filtering by a predicate and by its negation
splits a list exhaustively. -/
theorem filter_partition_length (p : JVal → Bool) (rs : List JVal) :
    (rs.filter p).length + (rs.filter (fun r => !p r)).length = rs.length := by
  induction rs with
  | nil => rfl
  | cons x xs ih =>
    by_cases hx : p x = true <;> simp [List.filter_cons, hx, ← ih] <;> omega

/-- C10: on the contact batch path, every `.ok` mapped result either is a
local rejection — it carries `"error"` and `"error_code"` keys and no
`"email_address"` — or is a member payload with no top-level `"error"`
key; and `split_mapped` (the `process_batch` partition) splits any mapped
list exhaustively and disjointly by the presence of `"error"`. -/
theorem C10_partition_exhaustive (env : Env) (cfg : Obj) (stream : String)
    (st : SinkState) (record : Obj) (v : JVal) (st' : SinkState)
    (hcontact : (isContactStream stream &&
      truthy (jgetD cfg "process_batch_contacts" (.bool true))) = true)
    (h : process_batch_record env cfg stream st record = (.ok v, st')) :
    ((jHasKey v "error" = true ∧ jHasKey v "error_code" = true ∧
        jHasKey v "email_address" = false) ∨ jHasKey v "error" = false) ∧
    ∀ rs : List JVal,
      (split_mapped rs).1.length + (split_mapped rs).2.length = rs.length ∧
      (∀ x ∈ (split_mapped rs).1, jHasKey x "error" = true) ∧
      (∀ x ∈ (split_mapped rs).2, jHasKey x "error" = false) := by
  constructor
  · rw [process_batch_record, if_pos hcontact] at h
    rcases (contact_map_master env cfg st record (.ok v) st' h).2 v rfl with hrej | hmem
    · obtain ⟨m, c, he⟩ := hrej
      subst he
      exact Or.inl (by simp [rejection, jHasKey, olookup])
    · obtain ⟨kvs, hkvs, herr, _, _⟩ := hmem
      subst hkvs
      exact Or.inr (by simp [jHasKey, herr])
  · intro rs
    refine ⟨filter_partition_length _ rs, fun x hx => ?_, fun x hx => ?_⟩
    · simp only [split_mapped] at hx
      exact @List.of_mem_filter JVal (fun r => jHasKey r "error") x rs hx
    · simp only [split_mapped] at hx
      have := @List.of_mem_filter JVal (fun r => !jHasKey r "error") x rs hx
      simpa using this

/-- Witness for C10 at a concrete record. -/
theorem C10_partition_exhaustive_witness :
    jHasKey payload9 "error" = false ∧
    (split_mapped [payload9]).1.length + (split_mapped [payload9]).2.length = 1 := by
  have h := C10_partition_exhaustive env0 [] "contacts" st0 rec9 payload9
    (process_batch_record env0 [] "contacts" st0 rec9).2 (by decide) (by rfl)
  refine ⟨?_, (h.2 [payload9]).1⟩
  rcases h.1 with ⟨he, _, _⟩ | he
  · exact absurd he (by simp [payload9, jHasKey, olookup])
  · exact he

/-! ## Payload-detail lemmas (merge fields and location of a mapped member) -/

theorem olookup_cons_ne (k₀ k : String) (v₀ : α) (rest : List (String × α))
    (h : k₀ ≠ k) : olookup k ((k₀, v₀) :: rest) = olookup k rest := by
  rw [olookup, if_neg h]

theorem olookup_cons_self (k : String) (v₀ : α) (rest : List (String × α)) :
    olookup k ((k, v₀) :: rest) = some v₀ := by
  rw [olookup, if_pos rfl]

theorem oset_cons_ne (k k' : String) (v : α) (v' : α) (t : List (String × α))
    (h : k ≠ k') : oset ((k, v) :: t) k' v' = (k, v) :: oset t k' v' := by
  rw [oset, if_neg h]

theorem cleanObj_cons_obj (k : String) (l' : List (String × JVal))
    (rest : List (String × JVal)) :
    cleanObj ((k, .obj l') :: rest) =
      if (cleanObj l').isEmpty then cleanObj rest
      else (k, .obj (cleanObj l')) :: cleanObj rest := by
  rw [cleanObj_cons, clean_convert_obj]
  rcases hc : cleanObj l' with _ | ⟨p, t⟩
  · simp [truthy, isAllowed]
  · simp [truthy, isAllowed]

theorem rejection_has_error (m : String) (record : Obj) (c : String) :
    jHasKey (rejection m record c) "error" = true := by
  simp [rejection, jHasKey, olookup]

theorem handle_custom_fields_empty (env : Env) (st : SinkState) (mf : Obj) :
    (handle_custom_fields env st (.arr []) mf).1 = .ok mf := by
  unfold handle_custom_fields
  rcases hcf : st.custom_fields with _ | cf <;> simp [hcf, iterElems, cfLoop]

/-- `phoneStep` preserves a two-binding prefix whose keys are not
`"PHONE"`. -/
theorem phoneStep_prefix2 (record : Obj) (k1 k2 : String) (v1 v2 : JVal)
    (t : Obj) (mf2 : Obj) (h1 : k1 ≠ "PHONE") (h2 : k2 ≠ "PHONE")
    (h : phoneStep record ((k1, v1) :: (k2, v2) :: t) = .ok mf2) :
    ∃ t2, mf2 = (k1, v1) :: (k2, v2) :: t2 := by
  unfold phoneStep at h
  by_cases hp : truthy (jget record "phone_numbers") = true
  · rw [if_pos hp] at h
    rcases hv : jget record "phone_numbers" with _ | b | q | s | l | kvs <;> rw [hv] at h
    · exact absurd h (by simp)
    · exact absurd h (by simp)
    · exact absurd h (by simp)
    · exact absurd h (by simp)
    · rcases l with _ | ⟨p, tl⟩
      · exact absurd h (by simp)
      · rcases p with _ | b | q | s | l2 | pd <;> simp only at h
        · exact absurd h (by simp)
        · exact absurd h (by simp)
        · exact absurd h (by simp)
        · exact absurd h (by simp)
        · exact absurd h (by simp)
        · by_cases hn : truthy (jget pd "number") = true
          · rw [if_pos hn] at h
            refine ⟨oset t "PHONE" (jget pd "number"), ?_⟩
            have := Except.ok.inj h
            rw [← this, oset_cons_ne _ _ _ _ _ h1, oset_cons_ne _ _ _ _ _ h2]
          · rw [if_neg hn] at h
            exact ⟨t, (Except.ok.inj h).symm⟩
    · exact absurd h (by simp)
  · rw [if_neg hp] at h
    exact ⟨t, (Except.ok.inj h).symm⟩

/-- `phoneStep` never introduces a key other than `"PHONE"`. -/
theorem phoneStep_lookup_none (record : Obj) (mf mf2 : Obj) (k : String)
    (hk : k ≠ "PHONE") (hmf : olookup k mf = none)
    (h : phoneStep record mf = .ok mf2) : olookup k mf2 = none := by
  unfold phoneStep at h
  by_cases hp : truthy (jget record "phone_numbers") = true
  · rw [if_pos hp] at h
    rcases hv : jget record "phone_numbers" with _ | b | q | s | l | kvs <;> rw [hv] at h
    · exact absurd h (by simp)
    · exact absurd h (by simp)
    · exact absurd h (by simp)
    · exact absurd h (by simp)
    · rcases l with _ | ⟨p, tl⟩
      · exact absurd h (by simp)
      · rcases p with _ | b | q | q2 | l2 | pd <;> simp only at h
        · exact absurd h (by simp)
        · exact absurd h (by simp)
        · exact absurd h (by simp)
        · exact absurd h (by simp)
        · exact absurd h (by simp)
        · by_cases hn : truthy (jget pd "number") = true
          · rw [if_pos hn] at h
            rw [← Except.ok.inj h, olookup_oset_ne _ _ _ _ (fun he => hk he.symm)]
            exact hmf
          · rw [if_neg hn] at h
            rw [← Except.ok.inj h]
            exact hmf
    · exact absurd h (by simp)
  · rw [if_neg hp] at h
    rw [← Except.ok.inj h]
    exact hmf

/-- `pyFloat` only succeeds with numbers. -/
theorem pyFloat_ok_num (x v : JVal) (h : pyFloat x = .ok v) : ∃ q, v = .num q := by
  unfold pyFloat at h
  rcases x with _ | b | q | s | l | kvs <;> simp only at h
  · exact absurd h (by simp)
  · exact ⟨_, (Except.ok.inj h).symm⟩
  · exact ⟨_, (Except.ok.inj h).symm⟩
  · rcases hp : parseFloatChars (pyTrim s).data with _ | q2 <;> rw [hp] at h
    · exact absurd h (by simp)
    · exact ⟨_, (Except.ok.inj h).symm⟩
  · exact absurd h (by simp)
  · exact absurd h (by simp)

/-- Detailed payload lemma for the contact mapping with no custom fields:
a non-rejected member payload exposes its pruned `merge_fields` (built
from the name split, the kept address and the phone number) and its
pruned `location`. -/
theorem contact_map_payload (env : Env) (cfg : Obj) (st : SinkState) (record : Obj)
    (v : JVal) (st' : SinkState)
    (h : contact_map env cfg st record = (.ok v, st'))
    (hnoerr : jHasKey v "error" = false)
    (hcfe : jgetD record "custom_fields" (.arr []) = .arr []) :
    ∃ (kvs : Obj) (fn ln : JVal) (addrOpt : Option Obj) (loc : Obj) (mf2 : Obj),
      v = .obj kvs ∧
      nameStep record = .ok (fn, ln) ∧
      addressStep record = .ok (.inr (addrOpt, loc)) ∧
      phoneStep record
        (match addrOpt with
         | some a => oset [("FNAME", fn), ("LNAME", ln)] "ADDRESS" (.obj a)
         | none => [("FNAME", fn), ("LNAME", ln)]) = .ok mf2 ∧
      olookup "merge_fields" kvs =
        (if (cleanObj (mf2.filter notNone)).isEmpty
         then none
         else some (.obj (cleanObj (mf2.filter notNone)))) ∧
      olookup "location" kvs =
        (if (cleanObj loc).isEmpty then none else some (.obj (cleanObj loc))) := by
  unfold contact_map at h
  simp only [] at h
  by_cases hcond : (!truthy (get_email_if_exists record)) = true
  · rw [if_pos hcond] at h
    injection h with h1 h2
    rw [← Except.ok.inj h1] at hnoerr
    exact absurd hnoerr (by simp [rejection_has_error])
  · rw [if_neg hcond] at h
    split at h
    · exact absurd h (by simp)
    · rename_i fn ln heqName
      split at h
      · exact absurd h (by simp)
      · -- addressStep returned the format rejection
        rename_i sres heqAddr
        injection h with h1 h2
        rw [← Except.ok.inj h1] at hnoerr
        obtain ⟨m, c, hrej⟩ := addressStep_inl record sres heqAddr
        rw [hrej] at hnoerr
        exact absurd hnoerr (by simp [rejection_has_error])
      · rename_i addrOpt location heqAddr
        split at h
        · exact absurd h (by simp)
        · rename_i mf2 heqPhone
          split at h
          · exact absurd h (by simp)
          · rename_i mf3 st2 heqCf
            rw [hcfe] at heqCf
            have hmf32 : mf3 = mf2 := by
              have hx := handle_custom_fields_empty env (ensureServer env st) mf2
              rw [heqCf] at hx
              exact Except.ok.inj hx
            subst hmf32
            by_cases hlists : truthy (jget record "lists") = true
            · rw [if_pos hlists] at h
              split at h
              · exact absurd h (by simp)
              · rename_i items heqIter
                rcases hgl : groupsLoop env record items
                    (ensureGroups env st2).groups_dict 0 [] with ⟨res2, gd1, creates⟩
                rw [hgl] at h
                split at h
                · exact absurd h (by simp)
                · -- rejection from the lists loop
                  rename_i rej heqRes
                  injection h with h1 h2
                  rw [← Except.ok.inj h1] at hnoerr
                  have hr : (groupsLoop env record items
                      (ensureGroups env st2).groups_dict 0 []).1 = .ok (.inl rej) := by
                    rw [hgl]; exact heqRes
                  obtain ⟨m, c, hrej⟩ := groupsLoop_inl env record items _ 0 [] rej hr
                  rw [hrej] at hnoerr
                  exact absurd hnoerr (by simp [rejection_has_error])
                · rename_i ids heqRes
                  rw [oset_interests] at h
                  have hch := (finishMember_cases _ _ record).1 v (by rw [h])
                  obtain ⟨kvs, hkvs, hlk⟩ := hch
                  refine ⟨kvs, fn, ln, addrOpt, location, mf3, hkvs, heqName, heqAddr,
                    heqPhone, ?_, ?_⟩
                  · rw [hlk "merge_fields" (by decide),
                      cleanObj_lookup_ne _ _ _ _ (by decide),
                      cleanObj_lookup_ne _ _ _ _ (by decide),
                      cleanObj_cons_obj]
                    by_cases hmt : (cleanObj (mf3.filter notNone)).isEmpty = true
                    · rw [if_pos hmt, if_pos hmt,
                        cleanObj_lookup_ne _ _ _ _ (by decide),
                        cleanObj_lookup_ne _ _ _ _ (by decide),
                        cleanObj_nil]
                      rfl
                    · rw [if_neg hmt, if_neg hmt, olookup_cons_self]
                  · rw [hlk "location" (by decide),
                      cleanObj_lookup_ne _ _ _ _ (by decide),
                      cleanObj_lookup_ne _ _ _ _ (by decide)]
                    rw [cleanObj_cons_obj]
                    by_cases hmt : (cleanObj (mf3.filter notNone)).isEmpty = true
                    · rw [if_pos hmt, cleanObj_cons_obj]
                      by_cases hlt : (cleanObj location).isEmpty = true
                      · rw [if_pos hlt, if_pos hlt,
                          cleanObj_lookup_ne _ _ _ _ (by decide), cleanObj_nil]
                        rfl
                      · rw [if_neg hlt, if_neg hlt, olookup_cons_self]
                    · rw [if_neg hmt, olookup_cons_ne _ _ _ _ (by decide), cleanObj_cons_obj]
                      by_cases hlt : (cleanObj location).isEmpty = true
                      · rw [if_pos hlt, if_pos hlt,
                          cleanObj_lookup_ne _ _ _ _ (by decide), cleanObj_nil]
                        rfl
                      · rw [if_neg hlt, if_neg hlt, olookup_cons_self]
            · rw [if_neg hlists] at h
              have hch := (finishMember_cases _ _ record).1 v (by rw [h])
              obtain ⟨kvs, hkvs, hlk⟩ := hch
              refine ⟨kvs, fn, ln, addrOpt, location, mf3, hkvs, heqName, heqAddr,
                heqPhone, ?_, ?_⟩
              · rw [hlk "merge_fields" (by decide),
                  cleanObj_lookup_ne _ _ _ _ (by decide),
                  cleanObj_lookup_ne _ _ _ _ (by decide),
                  cleanObj_cons_obj]
                by_cases hmt : (cleanObj (mf3.filter notNone)).isEmpty = true
                · rw [if_pos hmt, if_pos hmt,
                    cleanObj_lookup_ne _ _ _ _ (by decide), cleanObj_nil]
                  rfl
                · rw [if_neg hmt, if_neg hmt, olookup_cons_self]
              · rw [hlk "location" (by decide),
                  cleanObj_lookup_ne _ _ _ _ (by decide),
                  cleanObj_lookup_ne _ _ _ _ (by decide),
                  cleanObj_cons_obj]
                by_cases hmt : (cleanObj (mf3.filter notNone)).isEmpty = true
                · rw [if_pos hmt, cleanObj_cons_obj]
                  by_cases hlt : (cleanObj location).isEmpty = true
                  · rw [if_pos hlt, if_pos hlt, cleanObj_nil]
                    rfl
                  · rw [if_neg hlt, if_neg hlt, olookup_cons_self]
                · rw [if_neg hmt, olookup_cons_ne _ _ _ _ (by decide), cleanObj_cons_obj]
                  by_cases hlt : (cleanObj location).isEmpty = true
                  · rw [if_pos hlt, if_pos hlt, cleanObj_nil]
                    rfl
                  · rw [if_neg hlt, if_neg hlt, olookup_cons_self]

/-! ## C8: name splitting -/

theorem nameStep_of_tokens (record : Obj) (s : String) (f : String) (rest : List String)
    (hname : jget record "name" = .str s) (htok : pySplitWs s = f :: rest) :
    nameStep record = .ok (.str f, .str (pyJoin " " rest)) := by
  have hs : ¬(s = "") := by
    intro he
    subst he
    rw [show pySplitWs "" = [] from rfl] at htok
    exact List.noConfusion htok
  unfold nameStep
  rw [hname]
  simp only [truthy, hs, if_false, if_true, htok]

theorem payload_FNAME_LNAME_core (record : Obj) (kvs : Obj) (f l : String)
    (t1 mf2 : Obj)
    (hphone : phoneStep record
      (("FNAME", JVal.str f) :: ("LNAME", JVal.str l) :: t1) = .ok mf2)
    (hmf : olookup "merge_fields" kvs =
      if (cleanObj (List.filter notNone mf2)).isEmpty = true then none
      else some (JVal.obj (cleanObj (List.filter notNone mf2)))) :
    ∃ mfv, olookup "merge_fields" kvs = some (.obj mfv) ∧
      olookup "FNAME" mfv = some (.str f) ∧ olookup "LNAME" mfv = some (.str l) := by
  obtain ⟨t2, hmf2⟩ := phoneStep_prefix2 record _ _ _ _ _ _ (by decide) (by decide) hphone
  subst hmf2
  have hfil : ((("FNAME", JVal.str f) :: ("LNAME", JVal.str l) :: t2).filter notNone) =
      ("FNAME", JVal.str f) :: ("LNAME", JVal.str l) :: t2.filter notNone := by
    simp [List.filter_cons, notNone]
  rw [hfil, cleanObj_cons_str, cleanObj_cons_str] at hmf
  simp only [List.isEmpty_cons, Bool.false_eq_true, if_false] at hmf
  refine ⟨_, hmf, ?_, ?_⟩
  · exact olookup_cons_self _ _ _
  · rw [olookup_cons_ne _ _ _ _ (by decide)]
    exact olookup_cons_self _ _ _

/-- The FNAME/LNAME entries of a non-rejected member payload, when the
name resolution yields strings and there are no custom fields. -/
theorem payload_FNAME_LNAME (env : Env) (cfg : Obj) (st : SinkState) (record : Obj)
    (v : JVal) (st' : SinkState) (f l : String)
    (h : contact_map env cfg st record = (.ok v, st'))
    (hnoerr : jHasKey v "error" = false)
    (hcfe : jgetD record "custom_fields" (.arr []) = .arr [])
    (hns : nameStep record = .ok (.str f, .str l)) :
    ∃ kvs mfv, v = .obj kvs ∧ olookup "merge_fields" kvs = some (.obj mfv) ∧
      olookup "FNAME" mfv = some (.str f) ∧ olookup "LNAME" mfv = some (.str l) := by
  obtain ⟨kvs, fn, ln, addrOpt, loc, mf2, hkvs, hname', haddr', hphone', hmf, _⟩ :=
    contact_map_payload env cfg st record v st' h hnoerr hcfe
  have hpair : (fn, ln) = (JVal.str f, JVal.str l) := Except.ok.inj (hname'.symm.trans hns)
  have hfn : fn = .str f := congrArg Prod.fst hpair
  have hln : ln = .str l := congrArg Prod.snd hpair
  subst hfn
  subst hln
  rcases addrOpt with _ | a
  · obtain ⟨mfv, hm1, hm2, hm3⟩ :=
      payload_FNAME_LNAME_core record kvs f l [] mf2 hphone' hmf
    exact ⟨kvs, mfv, hkvs, hm1, hm2, hm3⟩
  · have hos : oset [("FNAME", JVal.str f), ("LNAME", JVal.str l)] "ADDRESS" (JVal.obj a) =
        ("FNAME", JVal.str f) :: ("LNAME", JVal.str l) :: [("ADDRESS", JVal.obj a)] := by
      simp [oset]
    simp only [] at hphone'
    rw [hos] at hphone'
    obtain ⟨mfv, hm1, hm2, hm3⟩ :=
      payload_FNAME_LNAME_core record kvs f l _ mf2 hphone' hmf
    exact ⟨kvs, mfv, hkvs, hm1, hm2, hm3⟩

/-- C8 counterexample: a record with the non-empty `name` string `" "`
(whitespace only) makes the contact mapping raise a `ValueError`
(`first_name, *last_name = " ".split()` unpacks an empty token list), so
no payload with an FNAME merge field is produced at all. -/
theorem C8_counterexample_whitespace_name :
    (process_batch_record env0 [] "contacts" st0
        [("email_address", .str "a@x.com"), ("name", .str " ")]).1 =
      .error .valueError ∧
    pySplitWs " " = [] ∧ (" " : String) ≠ "" := by
  refine ⟨rfl, rfl, by decide⟩

/-- C8 (amended): on the contact batch path, with no custom fields (which
are merged into the same `merge_fields` dict and could overwrite the name
tags): for every record whose `name` is a string with at least one
whitespace-separated token, a produced (non-rejected) payload maps FNAME
to the first token and LNAME to the remaining tokens joined by spaces; a
whitespace-only `name` instead raises.  For every record whose `name` is
falsy, FNAME/LNAME come from `first_name`/`last_name` via `or ""`
(defaulting to the empty string), stated here when those resolve to
strings. -/
theorem C8_name_split_mapping (env : Env) (cfg : Obj) (stream : String) (st : SinkState)
    (hcontact : (isContactStream stream &&
      truthy (jgetD cfg "process_batch_contacts" (.bool true))) = true) :
    (∀ (record : Obj) (v : JVal) (st' : SinkState) (s f : String) (rest : List String),
       jget record "name" = .str s → pySplitWs s = f :: rest →
       jgetD record "custom_fields" (.arr []) = .arr [] →
       process_batch_record env cfg stream st record = (.ok v, st') →
       jHasKey v "error" = false →
       ∃ kvs mfv, v = .obj kvs ∧ olookup "merge_fields" kvs = some (.obj mfv) ∧
         olookup "FNAME" mfv = some (.str f) ∧
         olookup "LNAME" mfv = some (.str (pyJoin " " rest))) ∧
    (∀ (record : Obj) (v : JVal) (st' : SinkState) (fs ls : String),
       truthy (jget record "name") = false →
       pyOr (jget record "first_name") (.str "") = .str fs →
       pyOr (jget record "last_name") (.str "") = .str ls →
       jgetD record "custom_fields" (.arr []) = .arr [] →
       process_batch_record env cfg stream st record = (.ok v, st') →
       jHasKey v "error" = false →
       ∃ kvs mfv, v = .obj kvs ∧ olookup "merge_fields" kvs = some (.obj mfv) ∧
         olookup "FNAME" mfv = some (.str fs) ∧
         olookup "LNAME" mfv = some (.str ls)) := by
  constructor
  · intro record v st' s f rest hname htok hcfe h hnoerr
    rw [process_batch_record, if_pos hcontact] at h
    exact payload_FNAME_LNAME env cfg st record v st' f (pyJoin " " rest) h hnoerr hcfe
      (nameStep_of_tokens record s f rest hname htok)
  · intro record v st' fs ls hfalsy hfs hls hcfe h hnoerr
    rw [process_batch_record, if_pos hcontact] at h
    have hns : nameStep record = .ok (.str fs, .str ls) := by
      unfold nameStep
      rw [if_neg (by simp [hfalsy]), hfs, hls]
    exact payload_FNAME_LNAME env cfg st record v st' fs ls h hnoerr hcfe hns

/-- Witness for C8 at a concrete record. -/
theorem C8_name_split_mapping_witness :
    ∃ kvs mfv,
      JVal.obj [("email_address", .str "a@x.com"), ("status", .str "subscribed"),
        ("merge_fields", .obj [("FNAME", .str "Jo"), ("LNAME", .str "Doe")]),
        ("location", .obj [("latitude", .num 0), ("longitude", .num 0), ("gmtoff", .num 0),
          ("dstoff", .num 0), ("country_code", .str ""), ("timezone", .str ""),
          ("region", .str "")])] = .obj kvs ∧
      olookup "merge_fields" kvs = some (.obj mfv) ∧
      olookup "FNAME" mfv = some (.str "Jo") ∧
      olookup "LNAME" mfv = some (.str "Doe") := by
  exact (C8_name_split_mapping env0 [] "contacts" st0 (by decide)).1
    [("email_address", .str "a@x.com"), ("name", .str "Jo Doe")] _
    (process_batch_record env0 [] "contacts" st0
      [("email_address", .str "a@x.com"), ("name", .str "Jo Doe")]).2
    "Jo Doe" "Jo" ["Doe"] rfl rfl rfl (by rfl) (by rfl)

/-! ## C6: incomplete addresses -/

theorem filter_lookup_none (k : String) (p : String × JVal → Bool) (l : Obj)
    (h : olookup k l = none) : olookup k (l.filter p) = none := by
  induction l with
  | nil => simp [olookup]
  | cons hd tl ih =>
    obtain ⟨k₀, v₀⟩ := hd
    have hk : ¬(k₀ = k) := by
      intro he
      rw [olookup, if_pos he] at h
      exact Option.noConfusion h
    rw [olookup, if_neg hk] at h
    rw [List.filter_cons]
    by_cases hp : p (k₀, v₀) = true
    · rw [if_pos hp, olookup, if_neg hk]
      exact ih h
    · rw [if_neg (by simp [hp])]
      exact ih h

/-- The `location` dict after line 260-267, spelled out. -/
theorem location_of_spine (ad : Obj) (lat lon : JVal) :
    location_of ad lat lon =
      [("latitude", lat), ("longitude", lon), ("gmtoff", .num 0), ("dstoff", .num 0),
       ("country_code", jget ad "country"), ("timezone", .str ""),
       ("region", jget ad "state")] := by
  simp [location_of, baseLocation, oset]

/-- When the first address object lacks a required field, the address step
keeps no address and the location is built from the raw address with
float-parsed latitude/longitude. -/
theorem addressStep_missing (record : Obj) (adObj : Obj) (restA : List JVal)
    (haddr : jget record "addresses" = .arr (.obj adObj :: restA))
    (hmiss : address_missing_required (mapped_address adObj) = true)
    (aOpt : Option Obj) (loc : Obj)
    (h : addressStep record = .ok (.inr (aOpt, loc))) :
    aOpt = none ∧ ∃ latq lonq : ℚ,
      pyFloat (jgetD adObj "latitude" (.num 0)) = .ok (.num latq) ∧
      pyFloat (jgetD adObj "longitude" (.num 0)) = .ok (.num lonq) ∧
      loc = location_of adObj (.num latq) (.num lonq) := by
  unfold addressStep at h
  rw [haddr, if_pos (show truthy (JVal.arr (.obj adObj :: restA)) = true from rfl)] at h
  simp only [] at h
  rw [if_pos hmiss] at h
  split at h
  · exact absurd h (by simp)
  · rename_i lat hlat
    split at h
    · exact absurd h (by simp)
    · rename_i lon hlon
      obtain ⟨latq, hlatq⟩ := pyFloat_ok_num _ _ hlat
      obtain ⟨lonq, hlonq⟩ := pyFloat_ok_num _ _ hlon
      subst hlatq
      subst hlonq
      have h2 : ((none : Option Obj), location_of adObj (.num latq) (.num lonq)) =
          (aOpt, loc) := Sum.inr.inj (Except.ok.inj h)
      exact ⟨(congrArg Prod.fst h2).symm, latq, lonq, hlat, hlon,
        (congrArg Prod.snd h2).symm⟩

/-- C6 counterexample: the first address misses required fields (no
state/zip), yet the payload still carries an ADDRESS merge field — a
custom field named `ADDRESS` matches the cached merge-field tag and is
written into `merge_fields` unconditionally. -/
theorem C6_counterexample_custom_field_address :
    address_missing_required (mapped_address
      [("line1", .str "x"), ("city", .str "c")]) = true ∧
    (process_batch_record env0 [] "contacts" st0
      [("email_address", .str "a@x.com"),
       ("addresses", .arr [.obj [("line1", .str "x"), ("city", .str "c")]]),
       ("custom_fields", .arr [.obj [("name", .str "ADDRESS"),
          ("value", .str "inj")]])]).1 =
      .ok (.obj [("email_address", .str "a@x.com"), ("status", .str "subscribed"),
        ("merge_fields", .obj [("FNAME", .str ""), ("LNAME", .str ""),
          ("ADDRESS", .str "inj")]),
        ("location", .obj [("latitude", .num 0), ("longitude", .num 0),
          ("gmtoff", .num 0), ("dstoff", .num 0), ("timezone", .str "")])]) ∧
    olookup "ADDRESS" [("FNAME", JVal.str ""), ("LNAME", .str ""),
      ("ADDRESS", .str "inj")] = some (.str "inj") := by
  exact ⟨rfl, rfl, rfl⟩

/-- C6 (amended): on the contact batch path, when the first address object
misses a required field (addr1/city/state/zip falsy after mapping) and
there are no custom fields (which are written into the same
`merge_fields` dict and can inject an ADDRESS key), every produced
(non-rejected) payload has no ADDRESS merge field, while
`location.country_code`/`region` still come from the raw address's
`country`/`state` when present, and an absent latitude defaults to 0. -/
theorem C6_incomplete_address_dropped (env : Env) (cfg : Obj) (stream : String)
    (st : SinkState) (record adObj : Obj) (restA : List JVal) (v : JVal)
    (st' : SinkState)
    (hcontact : (isContactStream stream &&
      truthy (jgetD cfg "process_batch_contacts" (.bool true))) = true)
    (haddr : jget record "addresses" = .arr (.obj adObj :: restA))
    (hmiss : address_missing_required (mapped_address adObj) = true)
    (hcfe : jgetD record "custom_fields" (.arr []) = .arr [])
    (h : process_batch_record env cfg stream st record = (.ok v, st'))
    (hnoerr : jHasKey v "error" = false) :
    ∃ kvs, v = .obj kvs ∧
      (∀ mfv, olookup "merge_fields" kvs = some (.obj mfv) →
        jHasKey (.obj mfv) "ADDRESS" = false) ∧
      ∃ locv, olookup "location" kvs = some (.obj locv) ∧
        (∀ cs, jget adObj "country" = .str cs →
          olookup "country_code" locv = some (.str cs)) ∧
        (∀ rs, jget adObj "state" = .str rs →
          olookup "region" locv = some (.str rs)) ∧
        (olookup "latitude" adObj = none →
          olookup "latitude" locv = some (.num 0)) := by
  rw [process_batch_record, if_pos hcontact] at h
  obtain ⟨kvs, fn, ln, addrOpt, loc, mf2, hkvs, hname', haddr', hphone', hmf, hloc⟩ :=
    contact_map_payload env cfg st record v st' h hnoerr hcfe
  obtain ⟨haopt, latq, lonq, hlat, hlon, hloceq⟩ :=
    addressStep_missing record adObj restA haddr hmiss addrOpt loc haddr'
  subst haopt
  have hA2 : olookup "ADDRESS" mf2 = none :=
    phoneStep_lookup_none record _ mf2 "ADDRESS" (by decide) (by rfl) hphone'
  have hA4 : olookup "ADDRESS" (cleanObj (List.filter notNone mf2)) = none :=
    cleanObj_lookup_none _ _ (filter_lookup_none "ADDRESS" notNone mf2 hA2)
  subst hloceq
  rw [location_of_spine, cleanObj_cons_num] at hloc
  simp only [List.isEmpty_cons, Bool.false_eq_true, if_false] at hloc
  refine ⟨kvs, hkvs, ?_, ?_⟩
  · intro mfv hm
    rw [hmf] at hm
    by_cases he : (cleanObj (List.filter notNone mf2)).isEmpty = true
    · rw [if_pos he] at hm
      exact Option.noConfusion hm
    · rw [if_neg he] at hm
      have hmv : cleanObj (List.filter notNone mf2) = mfv :=
        JVal.obj.inj (Option.some.inj hm)
      simp only [jHasKey]
      rw [← hmv, hA4]
      rfl
  · refine ⟨_, hloc, ?_, ?_, ?_⟩
    · intro cs hcs
      rw [olookup_cons_ne "latitude" "country_code" _ _ (by decide),
        cleanObj_lookup_ne "longitude" "country_code" _ _ (by decide),
        cleanObj_lookup_ne "gmtoff" "country_code" _ _ (by decide),
        cleanObj_lookup_ne "dstoff" "country_code" _ _ (by decide),
        hcs, cleanObj_cons_str]
      exact olookup_cons_self _ _ _
    · intro rs hrs
      rw [olookup_cons_ne "latitude" "region" _ _ (by decide),
        cleanObj_lookup_ne "longitude" "region" _ _ (by decide),
        cleanObj_lookup_ne "gmtoff" "region" _ _ (by decide),
        cleanObj_lookup_ne "dstoff" "region" _ _ (by decide),
        cleanObj_lookup_ne "country_code" "region" _ _ (by decide),
        cleanObj_lookup_ne "timezone" "region" _ _ (by decide),
        hrs, cleanObj_cons_str]
      exact olookup_cons_self _ _ _
    · intro hnone
      have hd : jgetD adObj "latitude" (.num 0) = .num 0 := by
        simp [jgetD, hnone]
      rw [hd] at hlat
      have hq : latq = 0 := (JVal.num.inj (Except.ok.inj hlat)).symm
      rw [olookup_cons_self, hq]

/-- Witness for C6 at a concrete record whose only address lacks `zip`. -/
theorem C6_incomplete_address_dropped_witness :
    ∃ kvs,
      JVal.obj [("email_address", .str "a@x.com"), ("status", .str "subscribed"),
        ("merge_fields", .obj [("FNAME", .str ""), ("LNAME", .str "")]),
        ("location", .obj [("latitude", .num 0), ("longitude", .num 0),
          ("gmtoff", .num 0), ("dstoff", .num 0), ("country_code", .str "US"),
          ("timezone", .str ""), ("region", .str "S")])] = .obj kvs ∧
      (∀ mfv, olookup "merge_fields" kvs = some (.obj mfv) →
        jHasKey (.obj mfv) "ADDRESS" = false) ∧
      ∃ locv, olookup "location" kvs = some (.obj locv) ∧
        (∀ cs, jget [("line1", JVal.str "x"), ("city", .str "c"),
            ("state", .str "S"), ("country", .str "US")] "country" = .str cs →
          olookup "country_code" locv = some (.str cs)) ∧
        (∀ rs, jget [("line1", JVal.str "x"), ("city", .str "c"),
            ("state", .str "S"), ("country", .str "US")] "state" = .str rs →
          olookup "region" locv = some (.str rs)) ∧
        (olookup "latitude" [("line1", JVal.str "x"), ("city", .str "c"),
            ("state", .str "S"), ("country", .str "US")] = none →
          olookup "latitude" locv = some (.num 0)) := by
  exact C6_incomplete_address_dropped env0 [] "contacts" st0
    [("email_address", .str "a@x.com"),
     ("addresses", .arr [.obj [("line1", .str "x"), ("city", .str "c"),
        ("state", .str "S"), ("country", .str "US")]])]
    [("line1", .str "x"), ("city", .str "c"), ("state", .str "S"), ("country", .str "US")]
    [] _
    (process_batch_record env0 [] "contacts" st0
      [("email_address", .str "a@x.com"),
       ("addresses", .arr [.obj [("line1", .str "x"), ("city", .str "c"),
          ("state", .str "S"), ("country", .str "US")]])]).2
    (by decide) rfl rfl rfl (by rfl) rfl

-- end of file marker
